import Mathlib

/-!
# Ground plane extraction (openvdb_voxel_mapper)

A shallow embedding of `ovm::Map` (types.h) and of the ground plane extractors
of `ovm::ops` (operations/ground_plane_extraction.cpp and
operations/ground_plane_extraction.hpp), followed by the properties of the
extractors.

Modelling conventions

* A C++ `float`/`double` is a value of `F32 = Option ℚ`, its numeric value:
  `none` is NaN and `some q` is the number `q`.  Arithmetic on numbers is exact
  (no rounding, no infinities); NaN propagates through arithmetic and every
  comparison with NaN is false, as in IEEE-754.  The sign of a zero and the
  payload of a NaN are not part of the numeric value; `IEEEFloat` keeps them for
  the cell update.
* An OpenVDB point data grid is the sequence of its leaf nodes, a leaf the
  sequence of its active voxels, a voxel its index coordinate and the voxel-space
  positions (attribute "P") of the points stored in it, in iteration order.
  Every leaf carries the attribute "P"; a leaf may hold no active voxel.
* An Eigen matrix is its two dimensions and its coefficient function; the
  coefficients of the matrix are those at `0 ≤ r < rows`, `0 ≤ c < cols`.
-/

namespace ovm

/-! ## Floating point values -/

/-- A floating point value: `none` is NaN, `some q` the number `q`. -/
abbrev F32 := Option ℚ

/-- The sentinel `NAN`. -/
def NAN : F32 := none

/-- The test `std::isnan`. -/
def isnan (v : F32) : Bool := v.isNone

/-- The comparison `a < b` of two floats: false as soon as one of them is NaN. -/
def F32.lt (a b : F32) : Bool :=
  match a, b with
  | some x, some y => decide (x < y)
  | _, _ => false

/-- The sum `a + b` of two floats. -/
def F32.add (a b : F32) : F32 :=
  match a, b with
  | some x, some y => some (x + y)
  | _, _ => none

/-- The product `a * b` of two floats. -/
def F32.mul (a b : F32) : F32 :=
  match a, b with
  | some x, some y => some (x * y)
  | _, _ => none

/-- The function `std::min(a, b)`, which is `(b < a) ? b : a`. -/
def stdMin (a b : F32) : F32 := if F32.lt b a then b else a

/-- Equality of two cells as `ovm::test::equal` compares them: NaN matches NaN
and numbers match when they are equal. -/
def F32.same (a b : F32) : Bool :=
  match a, b with
  | none, none => true
  | some x, some y => decide (x = y)
  | _, _ => false

/-! ## OpenVDB coordinates, boxes and transforms -/

/-- A vector of three floats (`openvdb::Vec3f`, `openvdb::Vec3d`). -/
structure Vec3 where
  x : F32
  y : F32
  z : F32
  deriving DecidableEq

/-- Componentwise sum of two vectors. -/
def Vec3.add (a b : Vec3) : Vec3 := ⟨F32.add a.x b.x, F32.add a.y b.y, F32.add a.z b.z⟩

/-- A value of the 32 bit signed integer type, read off an integer by wrapping. -/
def int32 (n : Int) : Int := (n + 2147483648) % 4294967296 - 2147483648

/-- An index-space coordinate (`openvdb::Coord`), three signed integers. -/
structure Coord where
  x : Int
  y : Int
  z : Int
  deriving DecidableEq

/-- The vector `Coord::asVec3d`. -/
def Coord.asVec3d (c : Coord) : Vec3 := ⟨some (c.x : ℚ), some (c.y : ℚ), some (c.z : ℚ)⟩

/-- The coordinate `Coord::offsetBy(n)`, in 32 bit arithmetic. -/
def Coord.offsetBy (c : Coord) (n : Int) : Coord := ⟨int32 (c.x + n), int32 (c.y + n), int32 (c.z + n)⟩

/-- The difference of two coordinates, in 32 bit arithmetic. -/
def Coord.sub (a b : Coord) : Coord := ⟨int32 (a.x - b.x), int32 (a.y - b.y), int32 (a.z - b.z)⟩

/-- The largest coordinate, `Coord::max()`. -/
def Coord.max : Coord := ⟨2147483647, 2147483647, 2147483647⟩

/-- The smallest coordinate, `Coord::min()`. -/
def Coord.min : Coord := ⟨-2147483648, -2147483648, -2147483648⟩

/-- An axis-aligned box of index space (`openvdb::CoordBBox`), both corners included. -/
structure CoordBBox where
  min : Coord
  max : Coord
  deriving DecidableEq

/-- The default box, which encloses nothing. -/
def CoordBBox.reset : CoordBBox := ⟨Coord.max, Coord.min⟩

/-- The test `CoordBBox::empty`. -/
def CoordBBox.empty (b : CoordBBox) : Bool :=
  decide (b.min.x > b.max.x) || decide (b.min.y > b.max.y) || decide (b.min.z > b.max.z)

/-- The extents `CoordBBox::dim`: `empty() ? Coord(0) : (mMax.offsetBy(1) - mMin)`. -/
def CoordBBox.dim (b : CoordBBox) : Coord :=
  if b.empty then ⟨0, 0, 0⟩ else (b.max.offsetBy 1).sub b.min

/-- The box grown to enclose one more coordinate, `CoordBBox::expand(const Coord&)`. -/
def CoordBBox.expand (b : CoordBBox) (c : Coord) : CoordBBox :=
  ⟨⟨Min.min b.min.x c.x, Min.min b.min.y c.y, Min.min b.min.z c.z⟩,
   ⟨Max.max b.max.x c.x, Max.max b.max.y c.y, Max.max b.max.z c.z⟩⟩

/-- An index-to-world transform (`openvdb::math::Transform`). -/
structure Transform where
  indexToWorld : Vec3 → Vec3

/-- The transform `createLinearTransform(voxel_size)`: `world = voxel_size * index`. -/
def Transform.createLinearTransform (voxel_size : ℚ) : Transform :=
  ⟨fun v => ⟨F32.mul (some voxel_size) v.x, F32.mul (some voxel_size) v.y,
             F32.mul (some voxel_size) v.z⟩⟩

/-! ## The sparse point volume -/

/-- An active voxel: its index coordinate and the voxel-space positions of the
points stored in it. -/
structure Voxel where
  coord : Coord
  points : List Vec3
  deriving DecidableEq

/-- A leaf node, given by its active voxels in iteration order. -/
structure Leaf where
  voxels : List Voxel
  deriving DecidableEq

/-- A point data grid: its leaf nodes in iteration order and its transform. -/
structure PointDataGrid where
  leaves : List Leaf
  transform : Transform

/-- The active voxels of the grid, leaf by leaf. -/
def PointDataGrid.activeVoxels (g : PointDataGrid) : List Voxel :=
  (g.leaves.map Leaf.voxels).flatten

/-- The test `Grid::empty`, which is `tree().empty()`: the root of the tree holds
no node.  The nodes of the model are the leaves, so the volume is empty when it
has no leaf; a leaf without active voxel makes it not empty. -/
def PointDataGrid.empty (g : PointDataGrid) : Bool := g.leaves.isEmpty

/-- The box `Grid::evalActiveVoxelBoundingBox`: the default box grown by every
active voxel. -/
def PointDataGrid.evalActiveVoxelBoundingBox (g : PointDataGrid) : CoordBBox :=
  match g.activeVoxels with
  | [] => CoordBBox.reset
  | v :: vs => vs.foldl (fun b w => b.expand w.coord) ⟨v.coord, v.coord⟩

/-! ## types.h: the elevation map -/

/-- The matrix type `Map::MapT` (`Eigen::MatrixXf`). -/
structure MapT where
  rows : Int
  cols : Int
  coeff : Int → Int → F32

/-- The matrix `MapT::Constant(rows, cols, value)`. -/
def MapT.Constant (rows cols : Int) (value : F32) : MapT := ⟨rows, cols, fun _ _ => value⟩

/-- The matrix after an assignment through `coeffRef(row, col)`. -/
def MapT.assign (m : MapT) (row col : Int) (value : F32) : MapT :=
  { m with coeff := fun r c => if r = row ∧ c = col then value else m.coeff r c }

/-- The pose type `Map::PoseT` (`Eigen::Vector2f`). -/
structure PoseT where
  x : F32
  y : F32
  deriving DecidableEq

/-- The axis-aligned map structure `ovm::Map`. -/
structure Map where
  map : MapT
  pose : PoseT

/-- The convenience constructor `Map(bbox, tf)`. -/
def Map.ofBBox (bbox : CoordBBox) (tf : Transform) : Map :=
  let dimensions := bbox.dim
  let origin := tf.indexToWorld bbox.min.asVec3d
  { map := MapT.Constant dimensions.y dimensions.x NAN
    pose := ⟨origin.x, origin.y⟩ }

/-! ## ground_plane_extraction.cpp: the host extractor -/

/-- The new value of a cell that holds `val` when a point of world height `z`
reaches it: `(std::isnan(val)) ? z : std::min(val, z)`. -/
def cellStep (val z : F32) : F32 := if isnan val then z else stdMin val z

/-- The body of the innermost loop: one stored point, at voxel `coord` with
voxel-space position `voxelPosition`, updates the map.  The components of
`coords = xyz - bbox.min()` are whole numbers, so the indices handed to
`coeffRef` are the integer differences. -/
def updatePoint (tf : Transform) (bbox : CoordBBox) (result : Map) (coord : Coord)
    (voxelPosition : Vec3) : Map :=
  let xyz := coord.asVec3d
  let worldPosition := tf.indexToWorld (voxelPosition.add xyz)
  let row := coord.y - bbox.min.y
  let col := coord.x - bbox.min.x
  let val := result.map.coeff row col
  { result with
    map := result.map.assign row col
      (cellStep val worldPosition.z) }

/-- The loop over the points of one leaf (`leaf->beginIndexOn()`). -/
def updateLeaf (tf : Transform) (bbox : CoordBBox) (result : Map) (leaf : Leaf) : Map :=
  leaf.voxels.foldl
    (fun res vox => vox.points.foldl (fun res p => updatePoint tf bbox res vox.coord p) res)
    result

/-- The host extractor `ovm::ops::ground_plane_extraction_geometric`; the
argument `none` is the null handle. -/
def ground_plane_extraction_geometric (grid : Option PointDataGrid) : Option Map :=
  match grid with
  | none => none
  | some g =>
    if g.empty then none
    else
      let bbox := g.evalActiveVoxelBoundingBox
      let result := Map.ofBBox bbox g.transform
      some (g.leaves.foldl (updateLeaf g.transform bbox) result)

/-! ## ground_plane_extraction.cpp: the accelerator extractor -/

/-- A NanoVDB grid as the extractor sees it: a raw pointer, named by a number. -/
structure NanoGrid where
  address : Nat
  deriving DecidableEq

/-- The handle returned by `nanovdb::openToNanoVDB`: `grid` is what
`handle.grid<uint32_t>()` returns and `deviceGrid` what
`handle.deviceGrid<uint32_t>()` returns, `none` being the null pointer. -/
structure GridHandle where
  grid : Option NanoGrid
  deviceGrid : Option NanoGrid
  deriving DecidableEq

/-- The collaborators of the accelerator extractor that live outside the two
source files: staging, upload and the kernel launcher declared `extern "C"`. -/
structure Device where
  openToNanoVDB : PointDataGrid → GridHandle
  deviceUpload : GridHandle → GridHandle
  launch_ground_plane_kernel : NanoGrid → NanoGrid → MapT → MapT

/-- The calls the accelerator extractor makes on its collaborators. -/
inductive DeviceCall where
  | openToNanoVDB
  | cudaStreamCreate
  | deviceUpload
  | launch_ground_plane_kernel
  | cudaStreamDestroy
  deriving DecidableEq

/-- The outcome of a call of the accelerator extractor: the collaborator calls
made, in order, and either the thrown `std::runtime_error` or the value returned. -/
structure CudaOutcome where
  calls : List DeviceCall
  value : Except String (Option Map)

/-- The accelerator extractor `ovm::ops::ground_plane_extraction_geometric_cuda`
of ground_plane_extraction.cpp. -/
def ground_plane_extraction_geometric_cuda (dev : Device) (grid : Option PointDataGrid) :
    CudaOutcome :=
  match grid with
  | none => ⟨[], Except.ok none⟩
  | some g =>
    if g.empty then ⟨[], Except.ok none⟩
    else
      let result := Map.ofBBox g.evalActiveVoxelBoundingBox g.transform
      let handle := dev.deviceUpload (dev.openToNanoVDB g)
      match handle.grid, handle.deviceGrid with
      | some grid_cpu, some grid_gpu =>
        let _launched : Map :=
          { result with map := dev.launch_ground_plane_kernel grid_gpu grid_cpu result.map }
        ⟨[DeviceCall.openToNanoVDB, DeviceCall.cudaStreamCreate, DeviceCall.deviceUpload,
          DeviceCall.launch_ground_plane_kernel, DeviceCall.cudaStreamDestroy],
         Except.ok none⟩
      | _, _ =>
        ⟨[DeviceCall.openToNanoVDB, DeviceCall.cudaStreamCreate, DeviceCall.deviceUpload],
         Except.error "Failed to access grid of expected type!"⟩

/-! ## ground_plane_extraction.hpp: the extractors of the header -/

/-- The accelerator extractor `ovm::ops::ground_plane_extraction_geometric_cuda`
as the header defines it.  It has no sanity check: it dereferences the handle at
once (`*grid`), so the model takes the volume itself, a null handle being
undefined behaviour; it stages the volume, creates the stream, uploads, destroys
the stream and returns `std::nullopt`.  The pointer check and the kernel launch
are commented out. -/
def ground_plane_extraction_geometric_cuda_hpp (dev : Device) (g : PointDataGrid) :
    CudaOutcome :=
  let _handle := dev.deviceUpload (dev.openToNanoVDB g)
  ⟨[DeviceCall.openToNanoVDB, DeviceCall.cudaStreamCreate, DeviceCall.deviceUpload,
    DeviceCall.cudaStreamDestroy],
   Except.ok none⟩

/-- The host extractor `ovm::ops::ground_plane_extraction_geometric` as the
header defines it: dimensions, origin, map and pose are computed in place and
the loops are those of the source file. -/
def ground_plane_extraction_geometric_hpp (grid : Option PointDataGrid) : Option Map :=
  match grid with
  | none => none
  | some g =>
    if g.empty then none
    else
      let bbox := g.evalActiveVoxelBoundingBox
      let dimensions := bbox.dim
      let origin := g.transform.indexToWorld bbox.min.asVec3d
      let result : Map :=
        { map := MapT.Constant dimensions.y dimensions.x NAN
          pose := ⟨origin.x, origin.y⟩ }
      some (g.leaves.foldl (updateLeaf g.transform bbox) result)

/-! ## The volume of the test `testGroundPlane` -/

/-- The integers `lo, lo + 1, ..., lo + n - 1`. -/
def intRange (lo : Int) (n : Nat) : List Int :=
  (List.range n).map (fun (i : Nat) => lo + (i : Int))

/-- The cloud of `testGroundPlane`: the points `(x, y, (x + y) * z)` for
`x` in `[-5, 5]`, `y` in `[-3, 3]`, `z` in `[1, 9]`, in the order of the three loops. -/
def testPoints : List Vec3 :=
  ((intRange (-5) 11).map (fun x =>
    ((intRange (-3) 7).map (fun y =>
      (intRange 1 9).map (fun z =>
        let v : Int := (x + y) * z
        (⟨some (x : ℚ), some (y : ℚ), some (v : ℚ)⟩ : Vec3)))).flatten)).flatten

/-- The voxel that holds index-space position `q` along one axis: the nearest
integer (cell-centred voxels). -/
def nearestVoxel (q : ℚ) : Int := ⌊q + 1 / 2⌋

/-- Two voxels lie in the same leaf block of 8 x 8 x 8 voxels. -/
def sameLeaf (a b : Coord) : Bool :=
  decide (a.x / 8 = b.x / 8 ∧ a.y / 8 = b.y / 8 ∧ a.z / 8 = b.z / 8)

/-- The voxels of a leaf after a point is stored at coordinate `c`. -/
def insertVoxel : List Voxel → Coord → Vec3 → List Voxel
  | [], c, p => [⟨c, [p]⟩]
  | v :: vs, c, p =>
    if v.coord = c then ⟨c, v.points ++ [p]⟩ :: vs else v :: insertVoxel vs c p

/-- The leaves of a volume after a point is stored at coordinate `c`. -/
def insertLeaf : List Leaf → Coord → Vec3 → List Leaf
  | [], c, p => [⟨[⟨c, [p]⟩]⟩]
  | l :: ls, c, p =>
    if l.voxels.any (fun v => sameLeaf v.coord c) then ⟨insertVoxel l.voxels c p⟩ :: ls
    else l :: insertLeaf ls c p

/-- The voxel coordinate and the voxel-space position of a world-space point at
the given voxel size: `index = world / voxel_size`, the voxel is the nearest
integer coordinate and the position is the offset from it.  A point with a NaN
component has none. -/
def worldToVoxel (voxel_size : ℚ) (p : Vec3) : Option (Coord × Vec3) :=
  match p.x, p.y, p.z with
  | some x, some y, some z =>
    let ix := x / voxel_size
    let iy := y / voxel_size
    let iz := z / voxel_size
    let c : Coord := ⟨nearestVoxel ix, nearestVoxel iy, nearestVoxel iz⟩
    some (c, ⟨some (ix - (c.x : ℚ)), some (iy - (c.y : ℚ)), some (iz - (c.z : ℚ))⟩)
  | _, _, _ => none

/-- The leaves of a volume after a world-space point is voxelized into it; a
point with a NaN component is not stored. -/
def insertWorldPoint (voxel_size : ℚ) (ls : List Leaf) (p : Vec3) : List Leaf :=
  match worldToVoxel voxel_size p with
  | some (c, offset) => insertLeaf ls c offset
  | none => ls

/-- Modelled from the spec: the volume `ovm::VoxelCloud(cloud, opts).grid()` is
the cloud voxelized at resolution `voxel_size` with origin 0 (voxel_cloud.h is
not among the sources): a sparse volume of leaf blocks whose active voxels hold
the points, each as integer voxel coordinate plus sub-voxel offset, under the
transform `world = voxel_size * index`. -/
def voxelCloudGrid (cloud : List Vec3) (voxel_size : ℚ) : PointDataGrid :=
  { leaves := cloud.foldl (insertWorldPoint voxel_size) []
    transform := Transform.createLinearTransform voxel_size }

/-- The volume handed to the extractors by `testGroundPlane`: voxel size 0.5. -/
def testGrid : PointDataGrid := voxelCloudGrid testPoints (1 / 2)

/-- The heights of the test cloud above one cell of the map: a cell with even
row and even column lies under the lattice position `X = -5 + col / 2`,
`Y = -3 + row / 2` and its heights are `(X + Y) * z` for `z` in `[1, 9]`; no other
cell has any. -/
def testColumnZs (row col : Int) : List F32 :=
  if row % 2 = 0 ∧ col % 2 = 0 ∧ 0 ≤ row ∧ row < 13 ∧ 0 ≤ col ∧ col < 21 then
    (intRange 1 9).map (fun z => some ((((-5 + col / 2) + (-3 + row / 2)) * z : Int) : ℚ))
  else []

/-- The literal `gt_map.map` of `testGroundPlane`, row by row. -/
def gt_map_rows : List (List F32) :=
  [[some (-18), none, some (-9), none, some 0, none, some 1, none, some 2, none, some 3, none,
    some 4, none, some 5, none, some 6, none, some 7, none, some 8],
   List.replicate 21 none,
   [some (-27), none, some (-18), none, some (-9), none, some 0, none, some 1, none, some 2, none,
    some 3, none, some 4, none, some 5, none, some 6, none, some 7],
   List.replicate 21 none,
   [some (-36), none, some (-27), none, some (-18), none, some (-9), none, some 0, none, some 1,
    none, some 2, none, some 3, none, some 4, none, some 5, none, some 6],
   List.replicate 21 none,
   [some (-45), none, some (-36), none, some (-27), none, some (-18), none, some (-9), none,
    some 0, none, some 1, none, some 2, none, some 3, none, some 4, none, some 5],
   List.replicate 21 none,
   [some (-54), none, some (-45), none, some (-36), none, some (-27), none, some (-18), none,
    some (-9), none, some 0, none, some 1, none, some 2, none, some 3, none, some 4],
   List.replicate 21 none,
   [some (-63), none, some (-54), none, some (-45), none, some (-36), none, some (-27), none,
    some (-18), none, some (-9), none, some 0, none, some 1, none, some 2, none, some 3],
   List.replicate 21 none,
   [some (-72), none, some (-63), none, some (-54), none, some (-45), none, some (-36), none,
    some (-27), none, some (-18), none, some (-9), none, some 0, none, some 1, none, some 2]]

/-- The ground truth map of `testGroundPlane`: pose `{-5, -5}` and the 13 x 21
literal. -/
def gt_map : Map :=
  { map := ⟨13, 21, fun r c => ((gt_map_rows.getD r.toNat []).getD c.toNat none)⟩
    pose := ⟨some (-5), some (-5)⟩ }

/-! ## Two small volumes -/

/-- A volume of two leaves and four active voxels under voxel size 0.5; the
voxels `(0, 0, 0)` and `(0, 0, 3)` share a column and `(2, 1, 0)` holds a point
whose height is NaN next to one whose height is a number. -/
def sampleGrid : PointDataGrid :=
  { leaves :=
      [⟨[⟨⟨0, 0, 0⟩, [⟨some 0, some 0, some (1 / 4)⟩, ⟨some 0, some 0, some (-1 / 4)⟩]⟩,
         ⟨⟨0, 0, 3⟩, [⟨some 0, some 0, some 0⟩]⟩,
         ⟨⟨2, 1, 0⟩, [⟨some 0, some 0, none⟩, ⟨some 0, some 0, some (1 / 2)⟩]⟩]⟩,
       ⟨[⟨⟨1, 9, 2⟩, [⟨some (1 / 4), some 0, some 0⟩]⟩]⟩]
    transform := Transform.createLinearTransform (1 / 2) }

/-- The volume `sampleGrid` with its leaves, its voxels and its points in
another order. -/
def sampleGridReordered : PointDataGrid :=
  { leaves :=
      [⟨[⟨⟨1, 9, 2⟩, [⟨some (1 / 4), some 0, some 0⟩]⟩]⟩,
       ⟨[⟨⟨2, 1, 0⟩, [⟨some 0, some 0, some (1 / 2)⟩, ⟨some 0, some 0, none⟩]⟩,
         ⟨⟨0, 0, 3⟩, [⟨some 0, some 0, some 0⟩]⟩,
         ⟨⟨0, 0, 0⟩, [⟨some 0, some 0, some (-1 / 4)⟩, ⟨some 0, some 0, some (1 / 4)⟩]⟩]⟩]
    transform := sampleGrid.transform }

/-- A volume of one leaf all of whose voxels are inactive: its tree is not
empty and it has no active voxel. -/
def hollowGrid : PointDataGrid :=
  { leaves := [⟨[]⟩]
    transform := Transform.createLinearTransform (1 / 2) }

/-- A volume without leaves. -/
def emptyGrid : PointDataGrid :=
  { leaves := []
    transform := Transform.createLinearTransform (1 / 2) }

/-- A volume of two active voxels at the two ends of the 32 bit range of X,
`(-2147483648, 0, 0)` and `(2147483647, 0, 0)`, each holding one point at its
centre. -/
def wideGrid : PointDataGrid :=
  { leaves :=
      [⟨[⟨⟨-2147483648, 0, 0⟩, [⟨some 0, some 0, some 0⟩]⟩]⟩,
       ⟨[⟨⟨2147483647, 0, 0⟩, [⟨some 0, some 0, some 0⟩]⟩]⟩]
    transform := Transform.createLinearTransform (1 / 2) }

/-! ## Two devices -/

/-- A device on which staging succeeds: the host pointer is there after the
conversion, the device pointer after the upload, and the kernel leaves the map
as it is. -/
def sampleDevice : Device :=
  { openToNanoVDB := fun _ => ⟨some ⟨1⟩, none⟩
    deviceUpload := fun h => ⟨h.grid, some ⟨2⟩⟩
    launch_ground_plane_kernel := fun _ _ m => m }

/-- A device on which the upload fails: the device pointer stays null. -/
def failingDevice : Device :=
  { openToNanoVDB := fun _ => ⟨some ⟨1⟩, none⟩
    deviceUpload := fun h => h
    launch_ground_plane_kernel := fun _ _ m => m }

/-! ## The cell update on the bits of a float -/

/-- A float with the features of its bit pattern that the cell update can tell
apart or pass on: a NaN with its payload, the negative zero, or a number, `num 0`
being the positive zero. -/
inductive IEEEFloat where
  | nan (payload : Nat)
  | negZero
  | num (q : ℚ)
  deriving DecidableEq

/-- The numeric value of a float: NaN, or its number, which is 0 for both zeros. -/
def IEEEFloat.value : IEEEFloat → F32
  | IEEEFloat.nan _ => none
  | IEEEFloat.negZero => some 0
  | IEEEFloat.num q => some q

/-- The test `std::isnan` on the bits. -/
def IEEEFloat.isnan : IEEEFloat → Bool
  | IEEEFloat.nan _ => true
  | _ => false

/-- The comparison `a < b` on the bits: it compares the numeric values, so
neither zero is below the other. -/
def IEEEFloat.lt (a b : IEEEFloat) : Bool := F32.lt a.value b.value

/-- The function `std::min(a, b)` on the bits, `(b < a) ? b : a`. -/
def stdMinBits (a b : IEEEFloat) : IEEEFloat := if IEEEFloat.lt b a then b else a

/-- The cell update `(std::isnan(val)) ? z : std::min(val, z)` on the bits. -/
def cellStepBits (val z : IEEEFloat) : IEEEFloat :=
  if val.isnan then z else stdMinBits val z

/-- The bits left in a cell by the traversal: the cell starts as `NAN` and is
updated with the world height of each stored point of its column, in the order
the points are visited. -/
def columnCellBits (heights : List IEEEFloat) : IEEEFloat :=
  heights.foldl cellStepBits (IEEEFloat.nan 0)

/-! ## Vocabulary of the properties -/

/-- The box `b` is the minimal box enclosing the coordinates `cs`: it encloses
each of them and each of its six faces holds one of them. -/
def IsBoundingBox (b : CoordBBox) (cs : List Coord) : Prop :=
  (∀ c ∈ cs, b.min.x ≤ c.x ∧ c.x ≤ b.max.x ∧ b.min.y ≤ c.y ∧ c.y ≤ b.max.y
      ∧ b.min.z ≤ c.z ∧ c.z ≤ b.max.z)
    ∧ (∃ c ∈ cs, c.x = b.min.x) ∧ (∃ c ∈ cs, c.x = b.max.x)
    ∧ (∃ c ∈ cs, c.y = b.min.y) ∧ (∃ c ∈ cs, c.y = b.max.y)
    ∧ (∃ c ∈ cs, c.z = b.min.z) ∧ (∃ c ∈ cs, c.z = b.max.z)

/-- The value `v` is the minimum of the heights `zs`: the least number among
them, and NaN, which is not ordered, exactly when none of them is a number. -/
def IsMinimumOf (v : F32) (zs : List F32) : Prop :=
  (v = NAN ↔ ∀ z ∈ zs, z = NAN) ∧ ∀ m, v = some m → some m ∈ zs ∧ ∀ q, some q ∈ zs → m ≤ q

/-- The stored points in the order the extractor visits them, each with the
coordinate of its voxel. -/
def PointDataGrid.pointList (g : PointDataGrid) : List (Coord × Vec3) :=
  (g.activeVoxels.map (fun v => v.points.map (fun p => (v.coord, p)))).flatten

/-- The world Z of a stored point: the transform applied to voxel coordinate
plus voxel-space position. -/
def worldZ (tf : Transform) (cp : Coord × Vec3) : F32 :=
  (tf.indexToWorld (cp.2.add cp.1.asVec3d)).z

/-- The voxel coordinate `c` lies in the column of cell `(row, col)` of a map
whose corner is `bbox.min`. -/
def inColumn (bbox : CoordBBox) (row col : Int) (c : Coord) : Prop :=
  c.x = bbox.min.x + col ∧ c.y = bbox.min.y + row

instance (bbox : CoordBBox) (row col : Int) (c : Coord) : Decidable (inColumn bbox row col c) := by
  unfold inColumn; infer_instance

/-- The cell indices `coeffRef` receives for a point of voxel `c`,
`row = c.y - bbox.min.y` and `col = c.x - bbox.min.x`, address a cell of a map
of `bbox.dim().y` rows and `bbox.dim().x` columns. -/
def cellInBounds (bbox : CoordBBox) (c : Coord) : Prop :=
  (0 ≤ c.y - bbox.min.y ∧ c.y - bbox.min.y < bbox.dim.y)
    ∧ (0 ≤ c.x - bbox.min.x ∧ c.x - bbox.min.x < bbox.dim.x)

instance (bbox : CoordBBox) (c : Coord) : Decidable (cellInBounds bbox c) := by
  unfold cellInBounds; infer_instance

/-- The world Z values of those of the points `ps` that lie in the column of
cell `(row, col)`. -/
def columnZsOf (tf : Transform) (bbox : CoordBBox) (ps : List (Coord × Vec3)) (row col : Int) :
    List F32 :=
  (ps.filter (fun cp => decide (inColumn bbox row col cp.1))).map (worldZ tf)

/-- The world Z values of the stored points of the column of cell `(row, col)`. -/
def columnZs (g : PointDataGrid) (row col : Int) : List F32 :=
  columnZsOf g.transform g.evalActiveVoxelBoundingBox g.pointList row col

end ovm

namespace ovm

/-! ## The cell update -/

theorem cellStep_none (z : F32) : cellStep none z = z := by
  simp [cellStep, isnan]

theorem cellStep_some_none (v : ℚ) : cellStep (some v) none = some v := by
  simp [cellStep, isnan, stdMin, F32.lt]

theorem cellStep_some_some (v z : ℚ) : cellStep (some v) (some z) = some (Min.min v z) := by
  simp only [cellStep, isnan, stdMin, F32.lt, Option.isNone_some, Bool.false_eq_true, if_false,
    decide_eq_true_eq]
  by_cases h : z < v
  · simp [h, min_eq_right (le_of_lt h)]
  · simp [h, min_eq_left (not_lt.mp h)]

/-- A cell fed a sequence of heights is NaN exactly when it was NaN and every
height is NaN. -/
theorem foldl_cellStep_eq_none (zs : List F32) (v : F32) :
    zs.foldl cellStep v = none ↔ v = none ∧ ∀ z ∈ zs, z = none := by
  induction zs generalizing v with
  | nil => simp
  | cons z zs ih =>
    rw [List.foldl_cons, ih]
    cases v with
    | none =>
      rw [cellStep_none]
      simp
    | some a =>
      cases z with
      | none => rw [cellStep_some_none]; simp
      | some b => rw [cellStep_some_some]; simp

/-- A number left in a cell fed a sequence of heights is the starting value or
one of the heights, and lies below the starting value and every height. -/
theorem foldl_cellStep_eq_some (zs : List F32) (v : F32) (m : ℚ)
    (h : zs.foldl cellStep v = some m) :
    (v = some m ∨ some m ∈ zs) ∧ (∀ q, v = some q → m ≤ q) ∧ ∀ q, some q ∈ zs → m ≤ q := by
  induction zs generalizing v with
  | nil =>
    simp only [List.foldl_nil] at h
    subst h
    simp
  | cons z zs ih =>
    rw [List.foldl_cons] at h
    obtain ⟨h1, h2, h3⟩ := ih _ h
    cases v with
    | none =>
      rw [cellStep_none] at h1 h2
      refine ⟨?_, ?_, ?_⟩
      · rcases h1 with h1 | h1
        · right; simp [h1]
        · right; simp [h1]
      · intro q hq; cases hq
      · intro q hq
        rcases List.mem_cons.mp hq with hq | hq
        · exact h2 q hq.symm
        · exact h3 q hq
    | some a =>
      cases z with
      | none =>
        rw [cellStep_some_none] at h1 h2
        refine ⟨?_, h2, ?_⟩
        · rcases h1 with h1 | h1
          · left; exact h1
          · right; simp [h1]
        · intro q hq
          rcases List.mem_cons.mp hq with hq | hq
          · cases hq
          · exact h3 q hq
      | some b =>
        rw [cellStep_some_some] at h1 h2
        have hm : m ≤ Min.min a b := h2 _ rfl
        refine ⟨?_, ?_, ?_⟩
        · rcases h1 with h1 | h1
          · have h1 : Min.min a b = m := Option.some.inj h1
            rcases min_choice a b with hc | hc
            · left; rw [← h1, hc]
            · right; rw [← h1, hc]; simp
          · right; simp [h1]
        · intro q hq
          have : a = q := Option.some.inj hq
          exact this ▸ le_trans hm (min_le_left a b)
        · intro q hq
          rcases List.mem_cons.mp hq with hq | hq
          · have : q = b := Option.some.inj hq
            exact this ▸ le_trans hm (min_le_right a b)
          · exact h3 q hq

/-! ## The traversal as one fold over the stored points -/

theorem updateLeaf_eq (tf : Transform) (bbox : CoordBBox) (leaf : Leaf) (res : Map) :
    updateLeaf tf bbox res leaf
      = ((leaf.voxels.map (fun v => v.points.map (fun p => (v.coord, p)))).flatten).foldl
          (fun res cp => updatePoint tf bbox res cp.1 cp.2) res := by
  unfold updateLeaf
  generalize leaf.voxels = vs
  induction vs generalizing res with
  | nil => rfl
  | cons v vs ih =>
    rw [List.foldl_cons, ih, List.map_cons, List.flatten_cons, List.foldl_append,
      List.foldl_map]

theorem foldl_updateLeaf_eq (tf : Transform) (bbox : CoordBBox) (ls : List Leaf) (res : Map) :
    ls.foldl (updateLeaf tf bbox) res
      = ((((ls.map Leaf.voxels).flatten).map
            (fun v => v.points.map (fun p => (v.coord, p)))).flatten).foldl
          (fun res cp => updatePoint tf bbox res cp.1 cp.2) res := by
  induction ls generalizing res with
  | nil => rfl
  | cons l ls ih =>
    rw [List.foldl_cons, ih, updateLeaf_eq, List.map_cons, List.flatten_cons, List.map_append,
      List.flatten_append, List.foldl_append]

theorem foldl_updatePoint_pose (tf : Transform) (bbox : CoordBBox) (ps : List (Coord × Vec3))
    (res : Map) :
    (ps.foldl (fun res cp => updatePoint tf bbox res cp.1 cp.2) res).pose = res.pose := by
  induction ps generalizing res with
  | nil => rfl
  | cons p ps ih => rw [List.foldl_cons, ih]; rfl

theorem foldl_updatePoint_rows (tf : Transform) (bbox : CoordBBox) (ps : List (Coord × Vec3))
    (res : Map) :
    (ps.foldl (fun res cp => updatePoint tf bbox res cp.1 cp.2) res).map.rows = res.map.rows := by
  induction ps generalizing res with
  | nil => rfl
  | cons p ps ih => rw [List.foldl_cons, ih]; rfl

theorem foldl_updatePoint_cols (tf : Transform) (bbox : CoordBBox) (ps : List (Coord × Vec3))
    (res : Map) :
    (ps.foldl (fun res cp => updatePoint tf bbox res cp.1 cp.2) res).map.cols = res.map.cols := by
  induction ps generalizing res with
  | nil => rfl
  | cons p ps ih => rw [List.foldl_cons, ih]; rfl

/-- One cell of the map after the traversal: the cell update folded over the
world heights of the points of its column, in traversal order. -/
theorem foldl_updatePoint_coeff (tf : Transform) (bbox : CoordBBox) (row col : Int)
    (ps : List (Coord × Vec3)) (res : Map) :
    (ps.foldl (fun res cp => updatePoint tf bbox res cp.1 cp.2) res).map.coeff row col
      = ((ps.filter (fun cp => decide (inColumn bbox row col cp.1))).map (worldZ tf)).foldl
          cellStep (res.map.coeff row col) := by
  induction ps generalizing res with
  | nil => rfl
  | cons p ps ih =>
    rw [List.foldl_cons, ih]
    by_cases hp : inColumn bbox row col p.1
    · have h1 : p.1.y - bbox.min.y = row := by have := hp.2; omega
      have h2 : p.1.x - bbox.min.x = col := by have := hp.1; omega
      rw [List.filter_cons_of_pos (by simpa using hp), List.map_cons, List.foldl_cons]
      congr 1
      simp [updatePoint, MapT.assign, h1, h2, worldZ]
    · have h : ¬ (row = p.1.y - bbox.min.y ∧ col = p.1.x - bbox.min.x) := by
        intro h; apply hp; constructor <;> omega
      rw [List.filter_cons_of_neg (by simpa using hp)]
      congr 1
      simp [updatePoint, MapT.assign, h]

/-! ## The active voxel bounding box -/

theorem foldl_min_spec {α : Type} (f : α → Int) (ws : List α) (a : Int) :
    (ws.foldl (fun m w => Min.min m (f w)) a ≤ a)
      ∧ (∀ w ∈ ws, ws.foldl (fun m w => Min.min m (f w)) a ≤ f w)
      ∧ (ws.foldl (fun m w => Min.min m (f w)) a = a
          ∨ ∃ w ∈ ws, f w = ws.foldl (fun m w => Min.min m (f w)) a) := by
  induction ws generalizing a with
  | nil => simp
  | cons w ws ih =>
    obtain ⟨h1, h2, h3⟩ := ih (Min.min a (f w))
    simp only [List.foldl_cons, List.mem_cons, forall_eq_or_imp, exists_eq_or_imp]
    refine ⟨le_trans h1 (min_le_left _ _), ⟨le_trans h1 (min_le_right _ _), h2⟩, ?_⟩
    rcases h3 with h3 | h3
    · rcases min_choice a (f w) with hc | hc
      · left; rw [h3, hc]
      · right; left; rw [h3, hc]
    · right; right; exact h3

theorem foldl_max_spec {α : Type} (f : α → Int) (ws : List α) (a : Int) :
    (a ≤ ws.foldl (fun m w => Max.max m (f w)) a)
      ∧ (∀ w ∈ ws, f w ≤ ws.foldl (fun m w => Max.max m (f w)) a)
      ∧ (ws.foldl (fun m w => Max.max m (f w)) a = a
          ∨ ∃ w ∈ ws, f w = ws.foldl (fun m w => Max.max m (f w)) a) := by
  induction ws generalizing a with
  | nil => simp
  | cons w ws ih =>
    obtain ⟨h1, h2, h3⟩ := ih (Max.max a (f w))
    simp only [List.foldl_cons, List.mem_cons, forall_eq_or_imp, exists_eq_or_imp]
    refine ⟨le_trans (le_max_left _ _) h1, ⟨le_trans (le_max_right _ _) h1, h2⟩, ?_⟩
    rcases h3 with h3 | h3
    · rcases max_choice a (f w) with hc | hc
      · left; rw [h3, hc]
      · right; left; rw [h3, hc]
    · right; right; exact h3

theorem foldl_expand_eq (ws : List Voxel) (b : CoordBBox) :
    ws.foldl (fun b w => b.expand w.coord) b
      = ⟨⟨ws.foldl (fun m w => Min.min m w.coord.x) b.min.x,
          ws.foldl (fun m w => Min.min m w.coord.y) b.min.y,
          ws.foldl (fun m w => Min.min m w.coord.z) b.min.z⟩,
         ⟨ws.foldl (fun m w => Max.max m w.coord.x) b.max.x,
          ws.foldl (fun m w => Max.max m w.coord.y) b.max.y,
          ws.foldl (fun m w => Max.max m w.coord.z) b.max.z⟩⟩ := by
  induction ws generalizing b with
  | nil => rfl
  | cons w ws ih => rw [List.foldl_cons, ih]; rfl

/-- The box of a volume with an active voxel is the minimal box enclosing the
coordinates of its active voxels. -/
theorem evalActiveVoxelBoundingBox_spec (g : PointDataGrid) (h : g.activeVoxels ≠ []) :
    IsBoundingBox g.evalActiveVoxelBoundingBox (g.activeVoxels.map Voxel.coord) := by
  unfold PointDataGrid.evalActiveVoxelBoundingBox
  generalize g.activeVoxels = vs at h
  cases vs with
  | nil => exact absurd rfl h
  | cons v vs =>
    simp only [foldl_expand_eq]
    obtain ⟨a1, a2, a3⟩ := foldl_min_spec (fun w : Voxel => w.coord.x) vs v.coord.x
    obtain ⟨b1, b2, b3⟩ := foldl_max_spec (fun w : Voxel => w.coord.x) vs v.coord.x
    obtain ⟨c1, c2, c3⟩ := foldl_min_spec (fun w : Voxel => w.coord.y) vs v.coord.y
    obtain ⟨d1, d2, d3⟩ := foldl_max_spec (fun w : Voxel => w.coord.y) vs v.coord.y
    obtain ⟨e1, e2, e3⟩ := foldl_min_spec (fun w : Voxel => w.coord.z) vs v.coord.z
    obtain ⟨f1, f2, f3⟩ := foldl_max_spec (fun w : Voxel => w.coord.z) vs v.coord.z
    have att : ∀ (f : Voxel → Int) (r : Int),
        (r = f v ∨ ∃ w ∈ vs, f w = r) → ∃ w ∈ v :: vs, f w = r := by
      intro f r hr
      rcases hr with hr | ⟨w, hw, hr⟩
      · exact ⟨v, List.mem_cons_self _ _, hr.symm⟩
      · exact ⟨w, List.mem_cons_of_mem _ hw, hr⟩
    refine ⟨?_, ?_, ?_, ?_, ?_, ?_, ?_⟩
    · intro c hc
      obtain ⟨w, hw, rfl⟩ := List.mem_map.mp hc
      rcases List.mem_cons.mp hw with rfl | hw
      · exact ⟨a1, b1, c1, d1, e1, f1⟩
      · exact ⟨a2 w hw, b2 w hw, c2 w hw, d2 w hw, e2 w hw, f2 w hw⟩
    · obtain ⟨w, hw, hr⟩ := att (fun w => w.coord.x) _ a3
      exact ⟨w.coord, List.mem_map_of_mem _ hw, hr⟩
    · obtain ⟨w, hw, hr⟩ := att (fun w => w.coord.x) _ b3
      exact ⟨w.coord, List.mem_map_of_mem _ hw, hr⟩
    · obtain ⟨w, hw, hr⟩ := att (fun w => w.coord.y) _ c3
      exact ⟨w.coord, List.mem_map_of_mem _ hw, hr⟩
    · obtain ⟨w, hw, hr⟩ := att (fun w => w.coord.y) _ d3
      exact ⟨w.coord, List.mem_map_of_mem _ hw, hr⟩
    · obtain ⟨w, hw, hr⟩ := att (fun w => w.coord.z) _ e3
      exact ⟨w.coord, List.mem_map_of_mem _ hw, hr⟩
    · obtain ⟨w, hw, hr⟩ := att (fun w => w.coord.z) _ f3
      exact ⟨w.coord, List.mem_map_of_mem _ hw, hr⟩

/-- Two minimal boxes of coordinate lists with the same members are equal. -/
theorem isBoundingBox_unique {b b2 : CoordBBox} {cs cs2 : List Coord}
    (h : IsBoundingBox b cs) (h2 : IsBoundingBox b2 cs2) (hm : ∀ c, c ∈ cs ↔ c ∈ cs2) :
    b = b2 := by
  obtain ⟨e, ⟨c1, m1, q1⟩, ⟨c2, m2, q2⟩, ⟨c3, m3, q3⟩, ⟨c4, m4, q4⟩, ⟨c5, m5, q5⟩,
    ⟨c6, m6, q6⟩⟩ := h
  obtain ⟨e', ⟨d1, n1, r1⟩, ⟨d2, n2, r2⟩, ⟨d3, n3, r3⟩, ⟨d4, n4, r4⟩, ⟨d5, n5, r5⟩,
    ⟨d6, n6, r6⟩⟩ := h2
  have k1 := e' c1 ((hm c1).mp m1); have k2 := e' c2 ((hm c2).mp m2)
  have k3 := e' c3 ((hm c3).mp m3); have k4 := e' c4 ((hm c4).mp m4)
  have k5 := e' c5 ((hm c5).mp m5); have k6 := e' c6 ((hm c6).mp m6)
  have l1 := e d1 ((hm d1).mpr n1); have l2 := e d2 ((hm d2).mpr n2)
  have l3 := e d3 ((hm d3).mpr n3); have l4 := e d4 ((hm d4).mpr n4)
  have l5 := e d5 ((hm d5).mpr n5); have l6 := e d6 ((hm d6).mpr n6)
  obtain ⟨⟨x1, y1, z1⟩, ⟨x2, y2, z2⟩⟩ := b
  obtain ⟨⟨x3, y3, z3⟩, ⟨x4, y4, z4⟩⟩ := b2
  simp only at *
  have hx1 : x1 = x3 := by omega
  have hy1 : y1 = y3 := by omega
  have hz1 : z1 = z3 := by omega
  have hx2 : x2 = x4 := by omega
  have hy2 : y2 = y4 := by omega
  have hz2 : z2 = z4 := by omega
  subst hx1 hy1 hz1 hx2 hy2 hz2
  rfl

/-! ## The result of the host extractor -/

theorem empty_eq_false_of_activeVoxels_ne_nil (g : PointDataGrid) (h : g.activeVoxels ≠ []) :
    g.empty = false := by
  unfold PointDataGrid.empty
  unfold PointDataGrid.activeVoxels at h
  cases hl : g.leaves with
  | nil => rw [hl] at h; exact absurd rfl h
  | cons l ls => rfl

/-- The box of a volume without active voxel is the default box. -/
theorem evalActiveVoxelBoundingBox_of_nil (g : PointDataGrid) (h : g.activeVoxels = []) :
    g.evalActiveVoxelBoundingBox = CoordBBox.reset := by
  unfold PointDataGrid.evalActiveVoxelBoundingBox
  rw [h]

theorem mem_pointList (g : PointDataGrid) (cp : Coord × Vec3) :
    cp ∈ g.pointList ↔ ∃ v ∈ g.activeVoxels, cp.1 = v.coord ∧ cp.2 ∈ v.points := by
  unfold PointDataGrid.pointList
  simp only [List.mem_flatten, List.mem_map]
  constructor
  · rintro ⟨l, ⟨v, hv, rfl⟩, hcp⟩
    obtain ⟨p, hp, rfl⟩ := List.mem_map.mp hcp
    exact ⟨v, hv, rfl, hp⟩
  · rintro ⟨v, hv, h1, h2⟩
    refine ⟨_, ⟨v, hv, rfl⟩, List.mem_map.mpr ⟨cp.2, h2, ?_⟩⟩
    rw [← h1]

theorem mem_columnZs (g : PointDataGrid) (row col : Int) (z : F32) :
    z ∈ columnZs g row col ↔
      ∃ v ∈ g.activeVoxels, inColumn g.evalActiveVoxelBoundingBox row col v.coord
        ∧ ∃ p ∈ v.points, worldZ g.transform (v.coord, p) = z := by
  unfold columnZs columnZsOf
  simp only [List.mem_map, List.mem_filter, decide_eq_true_eq, mem_pointList]
  constructor
  · rintro ⟨⟨c, p⟩, ⟨⟨v, hv, h1, h2⟩, hc⟩, rfl⟩
    simp only at h1 h2 hc
    subst h1
    exact ⟨v, hv, hc, p, h2, rfl⟩
  · rintro ⟨v, hv, hc, p, hp, rfl⟩
    exact ⟨(v.coord, p), ⟨⟨v, hv, rfl, hp⟩, hc⟩, rfl⟩

/-- The map returned for a volume that is not empty: the constructed map
after the fold of the point update over the stored points. -/
theorem extraction_eq (g : PointDataGrid) (hne : g.empty = false) :
    ground_plane_extraction_geometric (some g)
      = some (g.pointList.foldl
          (fun res cp => updatePoint g.transform g.evalActiveVoxelBoundingBox res cp.1 cp.2)
          (Map.ofBBox g.evalActiveVoxelBoundingBox g.transform)) := by
  simp only [ground_plane_extraction_geometric, hne, Bool.false_eq_true, if_false]
  rw [foldl_updateLeaf_eq]
  rfl

theorem foldl_cellStep_isMinimumOf (zs : List F32) : IsMinimumOf (zs.foldl cellStep none) zs := by
  constructor
  · rw [NAN, foldl_cellStep_eq_none]; simp
  · intro m hm
    obtain ⟨h1, _, h3⟩ := foldl_cellStep_eq_some zs none m hm
    refine ⟨?_, h3⟩
    rcases h1 with h1 | h1
    · cases h1
    · exact h1

/-- The minimum of a list of heights depends on its members only. -/
theorem isMinimumOf_unique {v w : F32} {zs ws : List F32} (hv : IsMinimumOf v zs)
    (hw : IsMinimumOf w ws) (hm : ∀ z, z ∈ zs ↔ z ∈ ws) : v = w := by
  cases v with
  | none =>
    cases w with
    | none => rfl
    | some b =>
      have h := (hw.2 b rfl).1
      have := (hv.1.mp rfl) _ ((hm _).mpr h)
      cases this
  | some a =>
    cases w with
    | none =>
      have h := (hv.2 a rfl).1
      have := (hw.1.mp rfl) _ ((hm _).mp h)
      cases this
    | some b =>
      obtain ⟨ha, ha2⟩ := hv.2 a rfl
      obtain ⟨hb, hb2⟩ := hw.2 b rfl
      have h1 : a ≤ b := ha2 b ((hm _).mpr hb)
      have h2 : b ≤ a := hb2 a ((hm _).mp ha)
      rw [le_antisymm h1 h2]

/-- The shape, the pose and every cell of the map returned for a volume that is
not empty. -/
theorem extraction_spec (g : PointDataGrid) (hne : g.empty = false) :
    ∃ m, ground_plane_extraction_geometric (some g) = some m
      ∧ m.map.rows = g.evalActiveVoxelBoundingBox.dim.y
      ∧ m.map.cols = g.evalActiveVoxelBoundingBox.dim.x
      ∧ m.pose = ⟨(g.transform.indexToWorld g.evalActiveVoxelBoundingBox.min.asVec3d).x,
                  (g.transform.indexToWorld g.evalActiveVoxelBoundingBox.min.asVec3d).y⟩
      ∧ ∀ row col, m.map.coeff row col = (columnZs g row col).foldl cellStep none := by
  refine ⟨_, extraction_eq g hne, ?_, ?_, ?_, ?_⟩
  · rw [foldl_updatePoint_rows]; rfl
  · rw [foldl_updatePoint_cols]; rfl
  · rw [foldl_updatePoint_pose]; rfl
  · intro row col
    rw [foldl_updatePoint_coeff]
    rfl

/-! ## Properties of the host extractor -/

/-- C1, reduction correctness: for a non-null, non-empty volume and a cell
`(row, col)` of the returned map whose column holds a stored point, the cell is
the minimum of the world Z of the stored points of the active voxels with index
`(X, Y) = (bbox.min.x + col, bbox.min.y + row)`. -/
theorem C1_reduction_correctness (g : PointDataGrid) (hne : g.empty = false) (row col : Int)
    (hrow : 0 ≤ row ∧ row < g.evalActiveVoxelBoundingBox.dim.y)
    (hcol : 0 ≤ col ∧ col < g.evalActiveVoxelBoundingBox.dim.x)
    (hpt : ∃ v ∈ g.activeVoxels,
      inColumn g.evalActiveVoxelBoundingBox row col v.coord ∧ v.points ≠ []) :
    ∃ m, ground_plane_extraction_geometric (some g) = some m
      ∧ (0 ≤ row ∧ row < m.map.rows) ∧ (0 ≤ col ∧ col < m.map.cols)
      ∧ columnZs g row col ≠ []
      ∧ IsMinimumOf (m.map.coeff row col) (columnZs g row col)
      ∧ ((∀ z ∈ columnZs g row col, z ≠ NAN) →
          ∃ q, m.map.coeff row col = some q ∧ some q ∈ columnZs g row col
            ∧ ∀ q2, some q2 ∈ columnZs g row col → q ≤ q2)
      ∧ ∀ z, z ∈ columnZs g row col ↔
          ∃ v ∈ g.activeVoxels, inColumn g.evalActiveVoxelBoundingBox row col v.coord
            ∧ ∃ p ∈ v.points, worldZ g.transform (v.coord, p) = z := by
  obtain ⟨m, hm, hr, hc, _, hcell⟩ := extraction_spec g hne
  have hmin : IsMinimumOf (m.map.coeff row col) (columnZs g row col) := by
    rw [hcell]
    exact foldl_cellStep_isMinimumOf _
  have hzs : columnZs g row col ≠ [] := by
    obtain ⟨v, hv, hin, hp⟩ := hpt
    obtain ⟨p, hp⟩ := List.exists_mem_of_ne_nil _ hp
    exact List.ne_nil_of_mem ((mem_columnZs g row col _).mpr ⟨v, hv, hin, p, hp, rfl⟩)
  refine ⟨m, hm, by rw [hr]; exact hrow, by rw [hc]; exact hcol, hzs, hmin, ?_,
    mem_columnZs g row col⟩
  intro hnum
  obtain ⟨z, hz⟩ := List.exists_mem_of_ne_nil _ hzs
  cases hq : m.map.coeff row col with
  | none => exact absurd (hmin.1.mp hq z hz) (hnum z hz)
  | some q => exact ⟨q, rfl, hmin.2 q hq⟩

/-- The statement of C1 at cell `(0, 0)` of the map of `sampleGrid`. -/
theorem C1_reduction_correctness_witness :
    ∃ m, ground_plane_extraction_geometric (some sampleGrid) = some m
      ∧ (0 ≤ (0 : Int) ∧ 0 < m.map.rows) ∧ (0 ≤ (0 : Int) ∧ 0 < m.map.cols)
      ∧ columnZs sampleGrid 0 0 ≠ []
      ∧ IsMinimumOf (m.map.coeff 0 0) (columnZs sampleGrid 0 0)
      ∧ ((∀ z ∈ columnZs sampleGrid 0 0, z ≠ NAN) →
          ∃ q, m.map.coeff 0 0 = some q ∧ some q ∈ columnZs sampleGrid 0 0
            ∧ ∀ q2, some q2 ∈ columnZs sampleGrid 0 0 → q ≤ q2)
      ∧ ∀ z, z ∈ columnZs sampleGrid 0 0 ↔
          ∃ v ∈ sampleGrid.activeVoxels,
            inColumn sampleGrid.evalActiveVoxelBoundingBox 0 0 v.coord
            ∧ ∃ p ∈ v.points, worldZ sampleGrid.transform (v.coord, p) = z :=
  C1_reduction_correctness sampleGrid (by decide) 0 0 (by decide) (by decide) (by decide)

/-- C2, sentinel correctness: for a non-null, non-empty volume in which every
active voxel holds a stored point whose world Z is a number, a cell
`(row, col)` of the returned map holds NaN if and only if no active voxel has
index `(X, Y) = (bbox.min.x + col, bbox.min.y + row)`. -/
theorem C2_sentinel_correctness (g : PointDataGrid) (hne : g.empty = false)
    (hvox : ∀ v ∈ g.activeVoxels, ∃ p ∈ v.points, worldZ g.transform (v.coord, p) ≠ NAN)
    (row col : Int)
    (hrow : 0 ≤ row ∧ row < g.evalActiveVoxelBoundingBox.dim.y)
    (hcol : 0 ≤ col ∧ col < g.evalActiveVoxelBoundingBox.dim.x) :
    ∃ m, ground_plane_extraction_geometric (some g) = some m
      ∧ (0 ≤ row ∧ row < m.map.rows) ∧ (0 ≤ col ∧ col < m.map.cols)
      ∧ (m.map.coeff row col = NAN ↔
          ¬ ∃ v ∈ g.activeVoxels, inColumn g.evalActiveVoxelBoundingBox row col v.coord) := by
  obtain ⟨m, hm, hr, hc, _, hcell⟩ := extraction_spec g hne
  refine ⟨m, hm, by rw [hr]; exact hrow, by rw [hc]; exact hcol, ?_⟩
  rw [hcell, (foldl_cellStep_isMinimumOf _).1]
  constructor
  · rintro h ⟨v, hv, hin⟩
    obtain ⟨p, hp, hz⟩ := hvox v hv
    exact hz (h _ ((mem_columnZs g row col _).mpr ⟨v, hv, hin, p, hp, rfl⟩))
  · intro h z hz
    obtain ⟨v, hv, hin, _⟩ := (mem_columnZs g row col z).mp hz
    exact absurd ⟨v, hv, hin⟩ h

/-- The statement of C2 at cell `(1, 2)` of the map of `sampleGrid`. -/
theorem C2_sentinel_correctness_witness :
    ∃ m, ground_plane_extraction_geometric (some sampleGrid) = some m
      ∧ (0 ≤ (1 : Int) ∧ 1 < m.map.rows) ∧ (0 ≤ (2 : Int) ∧ 2 < m.map.cols)
      ∧ (m.map.coeff 1 2 = NAN ↔
          ¬ ∃ v ∈ sampleGrid.activeVoxels,
            inColumn sampleGrid.evalActiveVoxelBoundingBox 1 2 v.coord) :=
  C2_sentinel_correctness sampleGrid (by decide) (by decide) 1 2 (by decide) (by decide)

/-- C3, shape correctness: the map returned for a non-null, non-empty volume
has `bbox.dim().y` rows and `bbox.dim().x` columns and its pose is the `(x, y)`
of the index-to-world transform of `bbox.min()`, where `bbox` is the minimal box
enclosing the active voxels (the default box when there is none); a map built by
`Map(bbox, tf)` has the same shape and pose and all its cells are NaN. -/
theorem C3_shape_correctness (g : PointDataGrid) (hne : g.empty = false) (box : CoordBBox)
    (tf : Transform) :
    (∃ m, ground_plane_extraction_geometric (some g) = some m
      ∧ m.map.rows = g.evalActiveVoxelBoundingBox.dim.y
      ∧ m.map.cols = g.evalActiveVoxelBoundingBox.dim.x
      ∧ m.pose = ⟨(g.transform.indexToWorld g.evalActiveVoxelBoundingBox.min.asVec3d).x,
                  (g.transform.indexToWorld g.evalActiveVoxelBoundingBox.min.asVec3d).y⟩
      ∧ (g.activeVoxels ≠ [] →
          IsBoundingBox g.evalActiveVoxelBoundingBox (g.activeVoxels.map Voxel.coord))
      ∧ (g.activeVoxels = [] → g.evalActiveVoxelBoundingBox = CoordBBox.reset))
    ∧ ((Map.ofBBox box tf).map.rows = box.dim.y
      ∧ (Map.ofBBox box tf).map.cols = box.dim.x
      ∧ (Map.ofBBox box tf).pose
          = ⟨(tf.indexToWorld box.min.asVec3d).x, (tf.indexToWorld box.min.asVec3d).y⟩
      ∧ ∀ row col, (Map.ofBBox box tf).map.coeff row col = NAN) := by
  obtain ⟨m, hm, hr, hc, hp, _⟩ := extraction_spec g hne
  exact ⟨⟨m, hm, hr, hc, hp, evalActiveVoxelBoundingBox_spec g,
    evalActiveVoxelBoundingBox_of_nil g⟩,
    rfl, rfl, rfl, fun _ _ => rfl⟩

/-- The statement of C3 for `sampleGrid` and for the map built from the box
`(0, 0, 0)` to `(2, 9, 3)`. -/
theorem C3_shape_correctness_witness :
    (∃ m, ground_plane_extraction_geometric (some sampleGrid) = some m
      ∧ m.map.rows = sampleGrid.evalActiveVoxelBoundingBox.dim.y
      ∧ m.map.cols = sampleGrid.evalActiveVoxelBoundingBox.dim.x
      ∧ m.pose
          = ⟨(sampleGrid.transform.indexToWorld
                sampleGrid.evalActiveVoxelBoundingBox.min.asVec3d).x,
             (sampleGrid.transform.indexToWorld
                sampleGrid.evalActiveVoxelBoundingBox.min.asVec3d).y⟩
      ∧ IsBoundingBox sampleGrid.evalActiveVoxelBoundingBox
          (sampleGrid.activeVoxels.map Voxel.coord))
    ∧ ((Map.ofBBox ⟨⟨0, 0, 0⟩, ⟨2, 9, 3⟩⟩ sampleGrid.transform).map.rows
          = (⟨⟨0, 0, 0⟩, ⟨2, 9, 3⟩⟩ : CoordBBox).dim.y
      ∧ (Map.ofBBox ⟨⟨0, 0, 0⟩, ⟨2, 9, 3⟩⟩ sampleGrid.transform).map.cols
          = (⟨⟨0, 0, 0⟩, ⟨2, 9, 3⟩⟩ : CoordBBox).dim.x
      ∧ (Map.ofBBox ⟨⟨0, 0, 0⟩, ⟨2, 9, 3⟩⟩ sampleGrid.transform).pose
          = ⟨(sampleGrid.transform.indexToWorld (⟨0, 0, 0⟩ : Coord).asVec3d).x,
             (sampleGrid.transform.indexToWorld (⟨0, 0, 0⟩ : Coord).asVec3d).y⟩
      ∧ ∀ row col,
          (Map.ofBBox ⟨⟨0, 0, 0⟩, ⟨2, 9, 3⟩⟩ sampleGrid.transform).map.coeff row col = NAN) := by
  obtain ⟨⟨m, hm, hr, hc, hp, hb, _⟩, h2⟩ :=
    C3_shape_correctness sampleGrid (by decide) ⟨⟨0, 0, 0⟩, ⟨2, 9, 3⟩⟩ sampleGrid.transform
  exact ⟨⟨m, hm, hr, hc, hp, hb (by decide)⟩, h2⟩

/-! ## The voxelized cloud -/

theorem mem_points_insertVoxel (vs : List Voxel) (c : Coord) (p : Vec3) (cp : Coord × Vec3) :
    cp ∈ ((insertVoxel vs c p).map (fun v => v.points.map (fun q => (v.coord, q)))).flatten
      ↔ cp = (c, p) ∨ cp ∈ (vs.map (fun v => v.points.map (fun q => (v.coord, q)))).flatten := by
  induction vs with
  | nil => simp [insertVoxel]
  | cons v vs ih =>
    unfold insertVoxel
    by_cases h : v.coord = c
    · rw [if_pos h]
      simp only [List.map_cons, List.flatten_cons, List.mem_append, List.map_append,
        List.map_nil, List.mem_singleton, h]
      tauto
    · rw [if_neg h]
      simp only [List.map_cons, List.flatten_cons, List.mem_append, ih]
      tauto

theorem mem_pointList_insertLeaf (tf : Transform) (ls : List Leaf) (c : Coord) (p : Vec3)
    (cp : Coord × Vec3) :
    cp ∈ (PointDataGrid.mk (insertLeaf ls c p) tf).pointList
      ↔ cp = (c, p) ∨ cp ∈ (PointDataGrid.mk ls tf).pointList := by
  unfold PointDataGrid.pointList PointDataGrid.activeVoxels
  induction ls with
  | nil => simp [insertLeaf]
  | cons l ls ih =>
    simp only at ih
    unfold insertLeaf
    split
    · simp only [List.map_cons, List.flatten_cons, List.map_append, List.flatten_append,
        List.mem_append, mem_points_insertVoxel]
      tauto
    · simp only [List.map_cons, List.flatten_cons, List.map_append, List.flatten_append,
        List.mem_append, ih]
      tauto

theorem points_ne_nil_insertVoxel (vs : List Voxel) (c : Coord) (p : Vec3)
    (h : ∀ v ∈ vs, v.points ≠ []) : ∀ v ∈ insertVoxel vs c p, v.points ≠ [] := by
  induction vs with
  | nil => simp [insertVoxel]
  | cons w vs ih =>
    unfold insertVoxel
    split
    · intro v hv
      rcases List.mem_cons.mp hv with rfl | hv
      · simp
      · exact h v (List.mem_cons_of_mem _ hv)
    · intro v hv
      rcases List.mem_cons.mp hv with rfl | hv
      · exact h v (List.mem_cons_self _ _)
      · exact ih (fun u hu => h u (List.mem_cons_of_mem _ hu)) v hv

theorem points_ne_nil_insertLeaf (tf : Transform) (ls : List Leaf) (c : Coord) (p : Vec3)
    (h : ∀ v ∈ (PointDataGrid.mk ls tf).activeVoxels, v.points ≠ []) :
    ∀ v ∈ (PointDataGrid.mk (insertLeaf ls c p) tf).activeVoxels, v.points ≠ [] := by
  unfold PointDataGrid.activeVoxels at h ⊢
  simp only at h ⊢
  induction ls with
  | nil => simp [insertLeaf]
  | cons l ls ih =>
    simp only [List.map_cons, List.flatten_cons, List.mem_append] at h
    unfold insertLeaf
    split
    · intro v hv
      simp only [List.map_cons, List.flatten_cons, List.mem_append] at hv
      rcases hv with hv | hv
      · exact points_ne_nil_insertVoxel l.voxels c p (fun u hu => h u (Or.inl hu)) v hv
      · exact h v (Or.inr hv)
    · intro v hv
      simp only [List.map_cons, List.flatten_cons, List.mem_append] at hv
      rcases hv with hv | hv
      · exact h v (Or.inl hv)
      · exact ih (fun u hu => h u (Or.inr hu)) v hv

theorem foldl_insertWorldPoint_spec (tf : Transform) (voxel_size : ℚ) (cloud : List Vec3)
    (ls : List Leaf) (h : ∀ v ∈ (PointDataGrid.mk ls tf).activeVoxels, v.points ≠ []) :
    (∀ cp, cp ∈ (PointDataGrid.mk (cloud.foldl (insertWorldPoint voxel_size) ls) tf).pointList
        ↔ cp ∈ (PointDataGrid.mk ls tf).pointList
          ∨ cp ∈ cloud.filterMap (worldToVoxel voxel_size))
      ∧ ∀ v ∈ (PointDataGrid.mk (cloud.foldl (insertWorldPoint voxel_size) ls)
          tf).activeVoxels, v.points ≠ [] := by
  induction cloud generalizing ls with
  | nil => simp only [List.foldl_nil, List.filterMap_nil, List.not_mem_nil, or_false,
      implies_true, true_and]; exact h
  | cons p cloud ih =>
    rw [List.foldl_cons]
    cases hp : worldToVoxel voxel_size p with
    | none =>
      have e : insertWorldPoint voxel_size ls p = ls := by simp [insertWorldPoint, hp]
      rw [e, List.filterMap_cons_none hp]
      exact ih ls h
    | some co =>
      obtain ⟨c, o⟩ := co
      have e : insertWorldPoint voxel_size ls p = insertLeaf ls c o := by
        simp [insertWorldPoint, hp]
      rw [e, List.filterMap_cons_some hp]
      obtain ⟨h1, h2⟩ := ih (insertLeaf ls c o) (points_ne_nil_insertLeaf tf ls c o h)
      refine ⟨fun cp => ?_, h2⟩
      rw [h1, mem_pointList_insertLeaf, List.mem_cons]
      tauto

/-- The stored points of a voxelized cloud are the voxelized points of the cloud,
and each of its active voxels holds a point. -/
theorem voxelCloudGrid_spec (cloud : List Vec3) (voxel_size : ℚ) :
    (∀ cp, cp ∈ (voxelCloudGrid cloud voxel_size).pointList
        ↔ cp ∈ cloud.filterMap (worldToVoxel voxel_size))
      ∧ ∀ v ∈ (voxelCloudGrid cloud voxel_size).activeVoxels, v.points ≠ [] := by
  obtain ⟨h1, h2⟩ := foldl_insertWorldPoint_spec (Transform.createLinearTransform voxel_size)
    voxel_size cloud [] (by simp [PointDataGrid.activeVoxels])
  refine ⟨fun cp => ?_, h2⟩
  have := h1 cp
  simpa [PointDataGrid.pointList, PointDataGrid.activeVoxels] using this

/-! ## The volume of `testGroundPlane` -/

theorem mem_intRange (lo : Int) (n : Nat) (a : Int) :
    a ∈ intRange lo n ↔ lo ≤ a ∧ a < lo + n := by
  unfold intRange
  simp only [List.mem_map, List.mem_range]
  constructor
  · rintro ⟨i, hi, rfl⟩
    omega
  · rintro ⟨h1, h2⟩
    exact ⟨(a - lo).toNat, by omega, by omega⟩

theorem nearestVoxel_intCast (n : Int) : nearestVoxel (n : ℚ) = n := by
  unfold nearestVoxel
  rw [Int.floor_eq_iff]
  constructor
  · linarith
  · linarith

/-- A point with integer coordinates lies, at voxel size 0.5, at the centre of
the voxel with twice its coordinates. -/
theorem worldToVoxel_half (x y v : Int) :
    worldToVoxel (1 / 2) ⟨some (x : ℚ), some (y : ℚ), some (v : ℚ)⟩
      = some (⟨2 * x, 2 * y, 2 * v⟩, ⟨some 0, some 0, some 0⟩) := by
  have h : ∀ n : Int, (n : ℚ) / (1 / 2) = ((2 * n : Int) : ℚ) := by
    intro n; push_cast; ring
  simp only [worldToVoxel, h, nearestVoxel_intCast, sub_self]

theorem mem_testPoints (p : Vec3) :
    p ∈ testPoints ↔
      ∃ x : Int, (-5 ≤ x ∧ x < 6) ∧ ∃ y : Int, (-3 ≤ y ∧ y < 4) ∧ ∃ z : Int, (1 ≤ z ∧ z < 10)
        ∧ p = ⟨some (x : ℚ), some (y : ℚ), some (((x + y) * z : Int) : ℚ)⟩ := by
  unfold testPoints
  constructor
  · intro h
    obtain ⟨l, hl, hp⟩ := List.mem_flatten.mp h
    obtain ⟨x, hx, rfl⟩ := List.mem_map.mp hl
    obtain ⟨l2, hl2, hp2⟩ := List.mem_flatten.mp hp
    obtain ⟨y, hy, rfl⟩ := List.mem_map.mp hl2
    obtain ⟨z, hz, rfl⟩ := List.mem_map.mp hp2
    rw [mem_intRange] at hx hy hz
    exact ⟨x, by omega, y, by omega, z, by omega, rfl⟩
  · rintro ⟨x, hx, y, hy, z, hz, rfl⟩
    refine List.mem_flatten.mpr ⟨_, List.mem_map.mpr ⟨x, ?_, rfl⟩, ?_⟩
    · rw [mem_intRange]; omega
    refine List.mem_flatten.mpr ⟨_, List.mem_map.mpr ⟨y, ?_, rfl⟩, ?_⟩
    · rw [mem_intRange]; omega
    refine List.mem_map.mpr ⟨z, ?_, rfl⟩
    rw [mem_intRange]; omega

theorem testGrid_mem_pointList (cp : Coord × Vec3) :
    cp ∈ testGrid.pointList ↔
      ∃ x : Int, (-5 ≤ x ∧ x < 6) ∧ ∃ y : Int, (-3 ≤ y ∧ y < 4) ∧ ∃ z : Int, (1 ≤ z ∧ z < 10)
        ∧ cp = (⟨2 * x, 2 * y, 2 * ((x + y) * z)⟩, ⟨some 0, some 0, some 0⟩) := by
  unfold testGrid
  rw [(voxelCloudGrid_spec testPoints (1 / 2)).1 cp, List.mem_filterMap]
  constructor
  · rintro ⟨p, hp, hv⟩
    obtain ⟨x, hx, y, hy, z, hz, rfl⟩ := (mem_testPoints p).mp hp
    rw [worldToVoxel_half] at hv
    exact ⟨x, hx, y, hy, z, hz, (Option.some.inj hv).symm⟩
  · rintro ⟨x, hx, y, hy, z, hz, rfl⟩
    exact ⟨_, (mem_testPoints _).mpr ⟨x, hx, y, hy, z, hz, rfl⟩, worldToVoxel_half x y _⟩

theorem testGrid_mem_coord (c : Coord) :
    c ∈ testGrid.activeVoxels.map Voxel.coord ↔
      ∃ x : Int, (-5 ≤ x ∧ x < 6) ∧ ∃ y : Int, (-3 ≤ y ∧ y < 4) ∧ ∃ z : Int, (1 ≤ z ∧ z < 10)
        ∧ c = ⟨2 * x, 2 * y, 2 * ((x + y) * z)⟩ := by
  simp only [List.mem_map]
  constructor
  · rintro ⟨v, hv, rfl⟩
    obtain ⟨p, hp⟩ :=
      List.exists_mem_of_ne_nil _ ((voxelCloudGrid_spec testPoints (1 / 2)).2 v hv)
    obtain ⟨x, hx, y, hy, z, hz, h⟩ := (testGrid_mem_pointList (v.coord, p)).mp
      ((mem_pointList testGrid _).mpr ⟨v, hv, rfl, hp⟩)
    exact ⟨x, hx, y, hy, z, hz, congrArg Prod.fst h⟩
  · rintro ⟨x, hx, y, hy, z, hz, rfl⟩
    obtain ⟨v, hv, h1, _⟩ := (mem_pointList testGrid _).mp
      ((testGrid_mem_pointList _).mpr ⟨x, hx, y, hy, z, hz, rfl⟩)
    exact ⟨v, hv, h1.symm⟩

theorem testGrid_activeVoxels_ne_nil : testGrid.activeVoxels ≠ [] := by
  have h : (⟨-10, -6, -144⟩ : Coord) ∈ testGrid.activeVoxels.map Voxel.coord :=
    (testGrid_mem_coord _).mpr ⟨-5, by omega, -3, by omega, 9, by omega, by decide⟩
  obtain ⟨v, hv, _⟩ := List.mem_map.mp h
  exact List.ne_nil_of_mem hv

theorem testGrid_empty : testGrid.empty = false :=
  empty_eq_false_of_activeVoxels_ne_nil testGrid testGrid_activeVoxels_ne_nil

/-- The active voxel bounding box of the test volume. -/
theorem testGrid_box :
    testGrid.evalActiveVoxelBoundingBox = ⟨⟨-10, -6, -144⟩, ⟨10, 6, 144⟩⟩ := by
  have h := evalActiveVoxelBoundingBox_spec testGrid testGrid_activeVoxels_ne_nil
  have mem : ∀ x y z : Int, (-5 ≤ x ∧ x < 6) → (-3 ≤ y ∧ y < 4) → (1 ≤ z ∧ z < 10) →
      (⟨2 * x, 2 * y, 2 * ((x + y) * z)⟩ : Coord) ∈ testGrid.activeVoxels.map Voxel.coord :=
    fun x y z hx hy hz => (testGrid_mem_coord _).mpr ⟨x, hx, y, hy, z, hz, rfl⟩
  have hb : IsBoundingBox ⟨⟨-10, -6, -144⟩, ⟨10, 6, 144⟩⟩
      (testGrid.activeVoxels.map Voxel.coord) := by
    refine ⟨?_, ⟨_, mem (-5) (-3) 9 (by omega) (by omega) (by omega), by decide⟩,
      ⟨_, mem 5 3 9 (by omega) (by omega) (by omega), by decide⟩,
      ⟨_, mem (-5) (-3) 9 (by omega) (by omega) (by omega), by decide⟩,
      ⟨_, mem 5 3 9 (by omega) (by omega) (by omega), by decide⟩,
      ⟨_, mem (-5) (-3) 9 (by omega) (by omega) (by omega), by decide⟩,
      ⟨_, mem 5 3 9 (by omega) (by omega) (by omega), by decide⟩⟩
    intro c hc
    obtain ⟨x, hx, y, hy, z, hz, rfl⟩ := (testGrid_mem_coord c).mp hc
    simp only
    have h1 : -8 ≤ x + y ∧ x + y ≤ 8 := by omega
    have h2 : -72 ≤ (x + y) * z := by nlinarith
    have h3 : (x + y) * z ≤ 72 := by nlinarith
    omega
  exact isBoundingBox_unique h hb (fun _ => Iff.rfl)

theorem worldZ_centre (c : Coord) :
    worldZ (Transform.createLinearTransform (1 / 2)) (c, ⟨some 0, some 0, some 0⟩)
      = some ((c.z : ℚ) / 2) := by
  simp only [worldZ, Transform.createLinearTransform, Vec3.add, Coord.asVec3d, F32.add,
    F32.mul, Option.some.injEq]
  ring

/-- The heights of the stored points of the test volume above one cell. -/
theorem testGrid_mem_columnZs (row col : Int) (h : F32) :
    h ∈ columnZs testGrid row col ↔ h ∈ testColumnZs row col := by
  rw [mem_columnZs, testGrid_box]
  have e : testGrid.transform = Transform.createLinearTransform (1 / 2) := rfl
  rw [e]
  unfold testColumnZs inColumn
  constructor
  · rintro ⟨v, hv, ⟨h1, h2⟩, p, hp, rfl⟩
    obtain ⟨x, hx, y, hy, z, hz, hcp⟩ := (testGrid_mem_pointList (v.coord, p)).mp
      ((mem_pointList testGrid _).mpr ⟨v, hv, rfl, hp⟩)
    have hc : v.coord = ⟨2 * x, 2 * y, 2 * ((x + y) * z)⟩ := congrArg Prod.fst hcp
    have hp2 : p = ⟨some 0, some 0, some 0⟩ := congrArg Prod.snd hcp
    rw [hc] at h1 h2
    simp only at h1 h2
    rw [if_pos (by omega), hp2, worldZ_centre, hc]
    refine List.mem_map.mpr ⟨z, (mem_intRange _ _ _).mpr (by omega), ?_⟩
    have e1 : -5 + col / 2 = x := by omega
    have e2 : -3 + row / 2 = y := by omega
    rw [e1, e2]
    simp only [Option.some.injEq]
    push_cast
    ring
  · intro hm
    split at hm
    · rename_i hcond
      obtain ⟨z, hz, rfl⟩ := List.mem_map.mp hm
      rw [mem_intRange] at hz
      obtain ⟨v, hv, h1, h2⟩ := (mem_pointList testGrid _).mp
        ((testGrid_mem_pointList _).mpr
          ⟨-5 + col / 2, by omega, -3 + row / 2, by omega, z, by omega, rfl⟩)
      simp only at h1 h2
      refine ⟨v, hv, ?_, _, h2, ?_⟩
      · rw [← h1]; simp only; omega
      · rw [← h1, worldZ_centre]
        simp only [Option.some.injEq]
        push_cast
        ring
    · cases hm

/-- The map returned for the test volume: 13 rows, 21 columns, the pose, and
each cell as the fold of the cell update over the heights above it. -/
theorem testGrid_extraction :
    ∃ m, ground_plane_extraction_geometric (some testGrid) = some m
      ∧ m.map.rows = 13 ∧ m.map.cols = 21
      ∧ m.pose = ⟨some (-5), some (-3)⟩
      ∧ ∀ row col, m.map.coeff row col = (testColumnZs row col).foldl cellStep none := by
  obtain ⟨m, hm, hr, hc, hp, hcell⟩ := extraction_spec testGrid testGrid_empty
  rw [testGrid_box] at hr hc hp
  refine ⟨m, hm, ?_, ?_, ?_, ?_⟩
  · rw [hr]; decide
  · rw [hc]; decide
  · rw [hp]
    have e : testGrid.transform = Transform.createLinearTransform (1 / 2) := rfl
    rw [e]
    decide!
  · intro row col
    rw [hcell]
    exact isMinimumOf_unique (foldl_cellStep_isMinimumOf _) (foldl_cellStep_isMinimumOf _)
      (testGrid_mem_columnZs row col)

/-! ## Properties of the two extractors on the test volume -/

/-- C5, cross-backend equivalence, evaluated on the volume of `testGroundPlane`:
the host extractor returns a map, the accelerator extractor never returns a map
(it returns the absent result or throws), so the two results differ whatever
the device does. -/
theorem C5_cross_backend_divergence (dev : Device) :
    (ground_plane_extraction_geometric (some testGrid)).isSome = true
      ∧ (∀ m, (ground_plane_extraction_geometric_cuda dev (some testGrid)).value
          ≠ Except.ok (some m))
      ∧ (ground_plane_extraction_geometric_cuda dev (some testGrid)).value
          ≠ Except.ok (ground_plane_extraction_geometric (some testGrid)) := by
  obtain ⟨m, hm, _⟩ := testGrid_extraction
  have h : ∀ m2, (ground_plane_extraction_geometric_cuda dev (some testGrid)).value
      ≠ Except.ok (some m2) := by
    intro m2
    simp only [ground_plane_extraction_geometric_cuda, testGrid_empty, Bool.false_eq_true,
      if_false]
    split <;> simp
  exact ⟨by rw [hm]; rfl, h, by rw [hm]; exact h m⟩

/-- C7, pose of the concrete scenario, evaluated: the map returned for the
volume of `testGroundPlane` has pose `(-5, -3)`, the world position of the
corner `(-10, -6)` of the box, and not the pose `(-5, -5)` of the ground truth
of the test. -/
theorem C7_test_pose :
    ∃ m, ground_plane_extraction_geometric (some testGrid) = some m
      ∧ m.pose = ⟨some (-5), some (-3)⟩
      ∧ gt_map.pose = ⟨some (-5), some (-5)⟩
      ∧ m.pose ≠ gt_map.pose := by
  obtain ⟨m, hm, _, _, hp, _⟩ := testGrid_extraction
  refine ⟨m, hm, hp, rfl, ?_⟩
  rw [hp]
  decide

/-- C8, layout of the concrete scenario: the map returned for the volume of
`testGroundPlane` has 13 rows and 21 columns, every cell with even row and even
column is not NaN, and a cell is NaN exactly when its row or its column is
odd. -/
theorem C8_test_layout :
    ∃ m, ground_plane_extraction_geometric (some testGrid) = some m
      ∧ m.map.rows = 13 ∧ m.map.cols = 21
      ∧ (∀ j : Fin 7, ∀ i : Fin 11, m.map.coeff (2 * (j.val : Int)) (2 * (i.val : Int)) ≠ NAN)
      ∧ ∀ r : Fin 13, ∀ c : Fin 21,
          (m.map.coeff (r.val : Int) (c.val : Int) = NAN ↔ (r.val % 2 = 1 ∨ c.val % 2 = 1)) := by
  obtain ⟨m, hm, hr, hc, _, hcell⟩ := testGrid_extraction
  refine ⟨m, hm, hr, hc, ?_, ?_⟩
  · simp only [hcell]
    decide!
  · simp only [hcell]
    decide!

/-- C9 as stated fails: the cells with even row `2j` and even column `2i` of the
map returned for the volume of `testGroundPlane` do not all hold `(X + Y) * 1`
with `X = -5 + i`, `Y = -3 + j`; cell `(0, 0)` holds `-72`, not `-8`. -/
theorem C9_value_as_stated_fails :
    ¬ ∃ m, ground_plane_extraction_geometric (some testGrid) = some m
      ∧ ∀ j : Fin 7, ∀ i : Fin 11,
          m.map.coeff (2 * (j.val : Int)) (2 * (i.val : Int))
            = some ((((-5 + (i.val : Int)) + (-3 + (j.val : Int))) * 1 : Int) : ℚ) := by
  rintro ⟨m, hm, h⟩
  obtain ⟨m2, hm2, _, _, _, hcell⟩ := testGrid_extraction
  rw [hm] at hm2
  cases hm2
  have h0 := h 0 0
  rw [hcell] at h0
  revert h0
  decide!

/-- C9 amended: every cell with even row `2j` and even column `2i` of the map
returned for the volume of `testGroundPlane` holds the least of the heights
`(X + Y) * z`, `z` in `[1, 9]`, of its column `X = -5 + i`, `Y = -3 + j`: it holds
`(X + Y) * 1` when `X + Y` is not negative and `(X + Y) * 9` when it is. -/
theorem C9_test_values :
    ∃ m, ground_plane_extraction_geometric (some testGrid) = some m
      ∧ ∀ j : Fin 7, ∀ i : Fin 11,
          m.map.coeff (2 * (j.val : Int)) (2 * (i.val : Int))
            = some ((if 0 ≤ (-5 + (i.val : Int)) + (-3 + (j.val : Int))
                then ((-5 + (i.val : Int)) + (-3 + (j.val : Int))) * 1
                else ((-5 + (i.val : Int)) + (-3 + (j.val : Int))) * 9 : Int) : ℚ) := by
  obtain ⟨m, hm, _, _, _, hcell⟩ := testGrid_extraction
  refine ⟨m, hm, ?_⟩
  simp only [hcell]
  decide!

/-- C10, ground truth of the test, evaluated: the map returned for the volume of
`testGroundPlane` is not the literal `gt_map.map`; cell `(0, 0)` holds `-72`
where the literal holds `-18`, and the returned map is the literal with its
rows in reverse order. -/
theorem C10_test_ground_truth :
    ∃ m, ground_plane_extraction_geometric (some testGrid) = some m
      ∧ m.map.rows = gt_map.map.rows ∧ m.map.cols = gt_map.map.cols
      ∧ m.map.coeff 0 0 = some (-72) ∧ gt_map.map.coeff 0 0 = some (-18)
      ∧ F32.same (m.map.coeff 0 0) (gt_map.map.coeff 0 0) = false
      ∧ ∀ r : Fin 13, ∀ c : Fin 21,
          F32.same (m.map.coeff (r.val : Int) (c.val : Int))
            (gt_map.map.coeff (12 - (r.val : Int)) (c.val : Int)) = true := by
  obtain ⟨m, hm, hr, hc, _, hcell⟩ := testGrid_extraction
  refine ⟨m, hm, hr, hc, ?_, ?_, ?_, ?_⟩
  · rw [hcell]; decide!
  · decide!
  · rw [hcell]; decide!
  · simp only [hcell]
    decide!

/-! ## Properties of the accelerator extractor -/

/-- C12, staging failure: for a non-null, non-empty volume, when the host grid
pointer or the device grid pointer is null after staging, the accelerator
extractor throws the runtime error, the kernel launch is not among the calls
made, and no value, map or absent, is returned. -/
theorem C12_cuda_staging_failure (dev : Device) (g : PointDataGrid) (hne : g.empty = false)
    (hnull : (dev.deviceUpload (dev.openToNanoVDB g)).grid = none
      ∨ (dev.deviceUpload (dev.openToNanoVDB g)).deviceGrid = none) :
    (ground_plane_extraction_geometric_cuda dev (some g)).value
        = Except.error "Failed to access grid of expected type!"
      ∧ DeviceCall.launch_ground_plane_kernel
          ∉ (ground_plane_extraction_geometric_cuda dev (some g)).calls
      ∧ ∀ r, (ground_plane_extraction_geometric_cuda dev (some g)).value ≠ Except.ok r := by
  simp only [ground_plane_extraction_geometric_cuda, hne, Bool.false_eq_true, if_false]
  split
  · rename_i a b ha hb
    rcases hnull with h | h
    · rw [h] at ha; cases ha
    · rw [h] at hb; cases hb
  · simp

/-- The statement of C12 for `sampleGrid` on the device whose upload fails. -/
theorem C12_cuda_staging_failure_witness :
    (ground_plane_extraction_geometric_cuda failingDevice (some sampleGrid)).value
        = Except.error "Failed to access grid of expected type!"
      ∧ DeviceCall.launch_ground_plane_kernel
          ∉ (ground_plane_extraction_geometric_cuda failingDevice (some sampleGrid)).calls
      ∧ ∀ r, (ground_plane_extraction_geometric_cuda failingDevice (some sampleGrid)).value
          ≠ Except.ok r :=
  C12_cuda_staging_failure failingDevice sampleGrid (by decide) (Or.inr rfl)

/-- C13, result discarding: the accelerator extractor never returns a map;
whenever it returns, the value is the absent result, also for a non-null,
non-empty volume whose staging succeeded and whose kernel was launched. -/
theorem C13_cuda_discards_result (dev : Device) (grid : Option PointDataGrid) :
    (∀ m, (ground_plane_extraction_geometric_cuda dev grid).value ≠ Except.ok (some m))
      ∧ (∀ r, (ground_plane_extraction_geometric_cuda dev grid).value = Except.ok r → r = none)
      ∧ ∀ g a b, grid = some g → g.empty = false
          → (dev.deviceUpload (dev.openToNanoVDB g)).grid = some a
          → (dev.deviceUpload (dev.openToNanoVDB g)).deviceGrid = some b
          → DeviceCall.launch_ground_plane_kernel
              ∈ (ground_plane_extraction_geometric_cuda dev grid).calls
            ∧ (ground_plane_extraction_geometric_cuda dev grid).value = Except.ok none := by
  have key : (ground_plane_extraction_geometric_cuda dev grid).value = Except.ok none
      ∨ (ground_plane_extraction_geometric_cuda dev grid).value
          = Except.error "Failed to access grid of expected type!" := by
    cases grid with
    | none => exact Or.inl rfl
    | some g =>
      simp only [ground_plane_extraction_geometric_cuda]
      split
      · exact Or.inl rfl
      · split
        · exact Or.inl rfl
        · exact Or.inr rfl
  refine ⟨?_, ?_, ?_⟩
  · intro m
    rcases key with h | h <;> rw [h] <;> simp
  · intro r hr
    rcases key with h | h
    · rw [h] at hr
      cases hr
      rfl
    · rw [h] at hr
      cases hr
  · rintro g a b rfl hne ha hb
    simp [ground_plane_extraction_geometric_cuda, hne, ha, hb]

/-- The last part of C13 for `sampleGrid` on `sampleDevice`: the kernel is
launched and the absent result is returned. -/
theorem C13_cuda_discards_result_witness :
    DeviceCall.launch_ground_plane_kernel
        ∈ (ground_plane_extraction_geometric_cuda sampleDevice (some sampleGrid)).calls
      ∧ (ground_plane_extraction_geometric_cuda sampleDevice (some sampleGrid)).value
          = Except.ok none :=
  (C13_cuda_discards_result sampleDevice (some sampleGrid)).2.2 sampleGrid ⟨1⟩ ⟨2⟩ rfl
    (by decide) rfl rfl

/-! ## The two host extractors -/

/-- C15, the two host implementations: for every input, null, empty or not, the
header version and the source file version of the host extractor return the
same result: both absent, or both a map with the same dimensions, the same pose
and the same cells. -/
theorem C15_header_source_equivalence (grid : Option PointDataGrid) :
    ground_plane_extraction_geometric_hpp grid = ground_plane_extraction_geometric grid
      ∧ ((ground_plane_extraction_geometric_hpp grid = none
            ∧ ground_plane_extraction_geometric grid = none)
          ∨ ∃ m, ground_plane_extraction_geometric_hpp grid = some m
            ∧ ground_plane_extraction_geometric grid = some m) := by
  have h : ground_plane_extraction_geometric_hpp grid
      = ground_plane_extraction_geometric grid := by
    cases grid with
    | none => rfl
    | some g => rfl
  refine ⟨h, ?_⟩
  rw [h]
  cases ground_plane_extraction_geometric grid with
  | none => exact Or.inl ⟨rfl, rfl⟩
  | some m => exact Or.inr ⟨m, rfl, rfl⟩

/-! ## The cells the traversal writes -/

/-- The extents of a box that is not empty and spans fewer than `2 ^ 31`
coordinates along X and along Y: no 32 bit overflow occurs. -/
theorem dim_of_extent (b : CoordBBox) (hx : b.min.x ≤ b.max.x) (hy : b.min.y ≤ b.max.y)
    (hz : b.min.z ≤ b.max.z) (ex : b.max.x - b.min.x < 2147483647)
    (ey : b.max.y - b.min.y < 2147483647) :
    b.dim.x = b.max.x - b.min.x + 1 ∧ b.dim.y = b.max.y - b.min.y + 1 := by
  have he : b.empty = false := by
    simp only [CoordBBox.empty, Bool.or_eq_false_iff, decide_eq_false_iff_not, not_lt, gt_iff_lt]
    exact ⟨⟨hx, hy⟩, hz⟩
  simp only [CoordBBox.dim, he, Bool.false_eq_true, if_false, Coord.sub, Coord.offsetBy, int32]
  constructor <;> omega

/-- The box of a volume with an active voxel encloses every active voxel and,
when it spans fewer than `2 ^ 31` coordinates along X and Y, so do its extents. -/
theorem activeVoxel_inBounds (g : PointDataGrid) (hv : g.activeVoxels ≠ [])
    (ex : g.evalActiveVoxelBoundingBox.max.x - g.evalActiveVoxelBoundingBox.min.x < 2147483647)
    (ey : g.evalActiveVoxelBoundingBox.max.y - g.evalActiveVoxelBoundingBox.min.y < 2147483647) :
    (g.evalActiveVoxelBoundingBox.dim.x
        = g.evalActiveVoxelBoundingBox.max.x - g.evalActiveVoxelBoundingBox.min.x + 1
      ∧ g.evalActiveVoxelBoundingBox.dim.y
        = g.evalActiveVoxelBoundingBox.max.y - g.evalActiveVoxelBoundingBox.min.y + 1)
      ∧ ∀ v ∈ g.activeVoxels, cellInBounds g.evalActiveVoxelBoundingBox v.coord := by
  obtain ⟨henc, _⟩ := evalActiveVoxelBoundingBox_spec g hv
  obtain ⟨w, hw⟩ := List.exists_mem_of_ne_nil _ hv
  have hw2 := henc w.coord (List.mem_map_of_mem _ hw)
  have hd := dim_of_extent g.evalActiveVoxelBoundingBox (by omega) (by omega) (by omega) ex ey
  refine ⟨hd, ?_⟩
  intro v hv2
  have h := henc v.coord (List.mem_map_of_mem _ hv2)
  unfold cellInBounds
  rw [hd.1, hd.2]
  omega

/-- Every cell above which an active voxel lies holds a number, when every
active voxel holds a point whose world Z is a number. -/
theorem extraction_coeff_ne_nan (g : PointDataGrid) (hne : g.empty = false)
    (hvox : ∀ v ∈ g.activeVoxels, ∃ p ∈ v.points, worldZ g.transform (v.coord, p) ≠ NAN) :
    ∃ m, ground_plane_extraction_geometric (some g) = some m
      ∧ m.map.rows = g.evalActiveVoxelBoundingBox.dim.y
      ∧ m.map.cols = g.evalActiveVoxelBoundingBox.dim.x
      ∧ ∀ v ∈ g.activeVoxels,
          m.map.coeff (v.coord.y - g.evalActiveVoxelBoundingBox.min.y)
            (v.coord.x - g.evalActiveVoxelBoundingBox.min.x) ≠ NAN := by
  obtain ⟨m, hm, hr, hc, _, hcell⟩ := extraction_spec g hne
  refine ⟨m, hm, hr, hc, ?_⟩
  intro v hv hnan
  rw [hcell, (foldl_cellStep_isMinimumOf _).1] at hnan
  obtain ⟨p, hp, hz⟩ := hvox v hv
  refine hz (hnan _ ((mem_columnZs g _ _ _).mpr ⟨v, hv, ?_, p, hp, rfl⟩))
  unfold inColumn
  constructor <;> omega

/-- C14 as stated fails: in the volume `wideGrid`, whose two active voxels lie
`2 ^ 32 - 1` apart along X, `bbox.dim().x` overflows to 0 and the indices of a
stored point do not address a cell of the map. -/
theorem C14_in_bounds_fails_on_overflow :
    wideGrid.empty = false
      ∧ wideGrid.evalActiveVoxelBoundingBox.dim.x = 0
      ∧ (∃ cp ∈ wideGrid.pointList, ¬ cellInBounds wideGrid.evalActiveVoxelBoundingBox cp.1)
      ∧ ∃ m, ground_plane_extraction_geometric (some wideGrid) = some m
          ∧ m.map.cols = 0
          ∧ ∃ cp ∈ wideGrid.pointList,
              ¬ (cp.1.x - wideGrid.evalActiveVoxelBoundingBox.min.x < m.map.cols) := by
  obtain ⟨m, hm, _, hc, _, _⟩ := extraction_spec wideGrid (by decide)
  have h0 : wideGrid.evalActiveVoxelBoundingBox.dim.x = 0 := by decide
  refine ⟨by decide, h0, by decide, m, hm, by rw [hc, h0], ?_⟩
  rw [hc, h0]
  decide

/-- C14 amended, in-bounds cell access: for a non-null, non-empty volume whose
active voxel bounding box spans fewer than `2 ^ 31` voxels along X and along Y,
the indices `Y - bbox.min.y` and `X - bbox.min.x` computed for every stored
point visited address a cell of the returned map. -/
theorem C14_in_bounds (g : PointDataGrid) (hne : g.empty = false)
    (ex : g.evalActiveVoxelBoundingBox.max.x - g.evalActiveVoxelBoundingBox.min.x < 2147483647)
    (ey : g.evalActiveVoxelBoundingBox.max.y - g.evalActiveVoxelBoundingBox.min.y < 2147483647) :
    ∃ m, ground_plane_extraction_geometric (some g) = some m
      ∧ ∀ cp ∈ g.pointList,
          cellInBounds g.evalActiveVoxelBoundingBox cp.1
            ∧ (0 ≤ cp.1.y - g.evalActiveVoxelBoundingBox.min.y
              ∧ cp.1.y - g.evalActiveVoxelBoundingBox.min.y < m.map.rows)
            ∧ (0 ≤ cp.1.x - g.evalActiveVoxelBoundingBox.min.x
              ∧ cp.1.x - g.evalActiveVoxelBoundingBox.min.x < m.map.cols) := by
  obtain ⟨m, hm, hr, hc, _, _⟩ := extraction_spec g hne
  refine ⟨m, hm, ?_⟩
  intro cp hcp
  obtain ⟨v, hv, h1, _⟩ := (mem_pointList g cp).mp hcp
  obtain ⟨_, hin⟩ := activeVoxel_inBounds g (List.ne_nil_of_mem hv) ex ey
  have h := hin v hv
  rw [← h1] at h
  refine ⟨h, ?_, ?_⟩
  · rw [hr]; exact h.1
  · rw [hc]; exact h.2

/-- The statement of C14 amended for `sampleGrid`. -/
theorem C14_in_bounds_witness :
    ∃ m, ground_plane_extraction_geometric (some sampleGrid) = some m
      ∧ ∀ cp ∈ sampleGrid.pointList,
          cellInBounds sampleGrid.evalActiveVoxelBoundingBox cp.1
            ∧ (0 ≤ cp.1.y - sampleGrid.evalActiveVoxelBoundingBox.min.y
              ∧ cp.1.y - sampleGrid.evalActiveVoxelBoundingBox.min.y < m.map.rows)
            ∧ (0 ≤ cp.1.x - sampleGrid.evalActiveVoxelBoundingBox.min.x
              ∧ cp.1.x - sampleGrid.evalActiveVoxelBoundingBox.min.x < m.map.cols) :=
  C14_in_bounds sampleGrid (by decide) (by decide) (by decide)

/-! ## Null, empty and hollow volumes -/

/-- C11 as stated fails: the volume `hollowGrid` has no active voxel, yet the
accelerator extractor of the source file stages it, creates the stream and
launches the kernel, its tree holding a leaf; and the accelerator extractor of
the header, which has no guard, stages even the volume without leaves and
creates the stream. -/
theorem C11_cuda_empty_input_fails :
    hollowGrid.activeVoxels = []
      ∧ (ground_plane_extraction_geometric_cuda sampleDevice (some hollowGrid)).calls
          = [DeviceCall.openToNanoVDB, DeviceCall.cudaStreamCreate, DeviceCall.deviceUpload,
             DeviceCall.launch_ground_plane_kernel, DeviceCall.cudaStreamDestroy]
      ∧ emptyGrid.activeVoxels = []
      ∧ (ground_plane_extraction_geometric_cuda_hpp sampleDevice emptyGrid).calls
          = [DeviceCall.openToNanoVDB, DeviceCall.cudaStreamCreate, DeviceCall.deviceUpload,
             DeviceCall.cudaStreamDestroy] := by
  decide

/-- C11 amended, empty input of the accelerator extractor of the source file:
for a null handle or a volume whose tree is empty (no leaf) it returns the
absent result, throws nothing and makes no call on the device: no staging, no
stream, no kernel launch. -/
theorem C11_cuda_empty_input (dev : Device) (grid : Option PointDataGrid)
    (h : grid = none ∨ ∃ g, grid = some g ∧ g.empty = true) :
    (ground_plane_extraction_geometric_cuda dev grid).value = Except.ok none
      ∧ (ground_plane_extraction_geometric_cuda dev grid).calls = [] := by
  rcases h with rfl | ⟨g, rfl, hg⟩
  · exact ⟨rfl, rfl⟩
  · simp [ground_plane_extraction_geometric_cuda, hg]

/-- The statement of C11 amended for the volume without leaves on `sampleDevice`. -/
theorem C11_cuda_empty_input_witness :
    (ground_plane_extraction_geometric_cuda sampleDevice (some emptyGrid)).value = Except.ok none
      ∧ (ground_plane_extraction_geometric_cuda sampleDevice (some emptyGrid)).calls = [] :=
  C11_cuda_empty_input sampleDevice (some emptyGrid) (Or.inr ⟨emptyGrid, rfl, rfl⟩)

/-! ## The border of the returned map -/

/-- C16 as stated fails: the volume `hollowGrid` is not null and not empty, its
tree holding a leaf, and each of its active voxels, there being none, holds a
point whose world Z is a number; the returned map has no row and no column,
hence no cell that is not NaN in its first row. -/
theorem C16_tight_border_fails_on_hollow_volume :
    hollowGrid.empty = false
      ∧ (∀ v ∈ hollowGrid.activeVoxels,
          ∃ p ∈ v.points, worldZ hollowGrid.transform (v.coord, p) ≠ NAN)
      ∧ ∃ m, ground_plane_extraction_geometric (some hollowGrid) = some m
          ∧ m.map.rows = 0 ∧ m.map.cols = 0
          ∧ ¬ ∃ col, (0 ≤ col ∧ col < m.map.cols) ∧ m.map.coeff 0 col ≠ NAN := by
  obtain ⟨m, hm, hr, hc, _, _⟩ := extraction_spec hollowGrid (by decide)
  have hd : hollowGrid.evalActiveVoxelBoundingBox.dim = ⟨0, 0, 0⟩ := by decide
  have hc0 : m.map.cols = 0 := by rw [hc, hd]
  refine ⟨by decide, by decide, m, hm, by rw [hr, hd], hc0, ?_⟩
  rintro ⟨col, ⟨h2, h3⟩, _⟩
  omega

/-- C16 amended, tight border: for a non-null volume that has an active voxel,
whose active voxel bounding box spans fewer than `2 ^ 31` voxels along X and
along Y and in which every active voxel holds a point whose world Z is a
number, the returned map has a cell that is not NaN in its first row, in its
last row, in its first column and in its last column; it is never entirely
NaN. -/
theorem C16_tight_border (g : PointDataGrid) (hv : g.activeVoxels ≠ [])
    (hvox : ∀ v ∈ g.activeVoxels, ∃ p ∈ v.points, worldZ g.transform (v.coord, p) ≠ NAN)
    (ex : g.evalActiveVoxelBoundingBox.max.x - g.evalActiveVoxelBoundingBox.min.x < 2147483647)
    (ey : g.evalActiveVoxelBoundingBox.max.y - g.evalActiveVoxelBoundingBox.min.y < 2147483647) :
    ∃ m, ground_plane_extraction_geometric (some g) = some m
      ∧ 0 < m.map.rows ∧ 0 < m.map.cols
      ∧ (∃ col, (0 ≤ col ∧ col < m.map.cols) ∧ m.map.coeff 0 col ≠ NAN)
      ∧ (∃ col, (0 ≤ col ∧ col < m.map.cols) ∧ m.map.coeff (m.map.rows - 1) col ≠ NAN)
      ∧ (∃ row, (0 ≤ row ∧ row < m.map.rows) ∧ m.map.coeff row 0 ≠ NAN)
      ∧ (∃ row, (0 ≤ row ∧ row < m.map.rows) ∧ m.map.coeff row (m.map.cols - 1) ≠ NAN)
      ∧ ∃ row col, (0 ≤ row ∧ row < m.map.rows) ∧ (0 ≤ col ∧ col < m.map.cols)
          ∧ m.map.coeff row col ≠ NAN := by
  have hne : g.empty = false := empty_eq_false_of_activeVoxels_ne_nil g hv
  obtain ⟨m, hm, hr, hc, hcell⟩ := extraction_coeff_ne_nan g hne hvox
  obtain ⟨⟨dx, dy⟩, hin⟩ := activeVoxel_inBounds g hv ex ey
  obtain ⟨henc, ⟨c1, m1, q1⟩, ⟨c2, m2, q2⟩, ⟨c3, m3, q3⟩, ⟨c4, m4, q4⟩, _, _⟩ :=
    evalActiveVoxelBoundingBox_spec g hv
  obtain ⟨v1, hv1, rfl⟩ := List.mem_map.mp m1
  obtain ⟨v2, hv2, rfl⟩ := List.mem_map.mp m2
  obtain ⟨v3, hv3, rfl⟩ := List.mem_map.mp m3
  obtain ⟨v4, hv4, rfl⟩ := List.mem_map.mp m4
  have b1 := hin v1 hv1
  have b2 := hin v2 hv2
  have b3 := hin v3 hv3
  have b4 := hin v4 hv4
  have n1 := hcell v1 hv1
  have n2 := hcell v2 hv2
  have n3 := hcell v3 hv3
  have n4 := hcell v4 hv4
  unfold cellInBounds at b1 b2 b3 b4
  rw [← hr, ← hc] at b1 b2 b3 b4
  rw [← hr] at dy
  rw [← hc] at dx
  refine ⟨m, hm, by omega, by omega, ?_, ?_, ?_, ?_, ?_⟩
  · refine ⟨_, b3.2, ?_⟩
    have e : v3.coord.y - g.evalActiveVoxelBoundingBox.min.y = 0 := by omega
    rw [e] at n3
    exact n3
  · refine ⟨_, b4.2, ?_⟩
    have e : v4.coord.y - g.evalActiveVoxelBoundingBox.min.y = m.map.rows - 1 := by omega
    rw [e] at n4
    exact n4
  · refine ⟨_, b1.1, ?_⟩
    have e : v1.coord.x - g.evalActiveVoxelBoundingBox.min.x = 0 := by omega
    rw [e] at n1
    exact n1
  · refine ⟨_, b2.1, ?_⟩
    have e : v2.coord.x - g.evalActiveVoxelBoundingBox.min.x = m.map.cols - 1 := by omega
    rw [e] at n2
    exact n2
  · exact ⟨_, _, b1.1, b1.2, n1⟩

/-- The statement of C16 amended for `sampleGrid`. -/
theorem C16_tight_border_witness :
    ∃ m, ground_plane_extraction_geometric (some sampleGrid) = some m
      ∧ 0 < m.map.rows ∧ 0 < m.map.cols
      ∧ (∃ col, (0 ≤ col ∧ col < m.map.cols) ∧ m.map.coeff 0 col ≠ NAN)
      ∧ (∃ col, (0 ≤ col ∧ col < m.map.cols) ∧ m.map.coeff (m.map.rows - 1) col ≠ NAN)
      ∧ (∃ row, (0 ≤ row ∧ row < m.map.rows) ∧ m.map.coeff row 0 ≠ NAN)
      ∧ (∃ row, (0 ≤ row ∧ row < m.map.rows) ∧ m.map.coeff row (m.map.cols - 1) ≠ NAN)
      ∧ ∃ row col, (0 ≤ row ∧ row < m.map.rows) ∧ (0 ≤ col ∧ col < m.map.cols)
          ∧ m.map.coeff row col ≠ NAN :=
  C16_tight_border sampleGrid (by decide) (by decide) (by decide) (by decide)

/-! ## Traversal order -/

/-- The cell update on the bits has the numeric value of the cell update on the
numeric values. -/
theorem cellStepBits_value (v z : IEEEFloat) :
    (cellStepBits v z).value = cellStep v.value z.value := by
  have key : ∀ a : ℚ, v.isnan = false → v.value = some a →
      (cellStepBits v z).value = cellStep v.value z.value := by
    intro a hn hv
    unfold cellStepBits stdMinBits cellStep stdMin IEEEFloat.lt
    rw [hn, hv]
    by_cases h : F32.lt z.value (some a) = true
    · simp [h, isnan]
    · simp [h, isnan, hv]
  cases v with
  | nan p => simp [cellStepBits, IEEEFloat.isnan, IEEEFloat.value, cellStep, isnan]
  | negZero => exact key 0 rfl rfl
  | num q => exact key q rfl rfl

theorem foldl_cellStepBits_value (zs : List IEEEFloat) (v : IEEEFloat) :
    (zs.foldl cellStepBits v).value = (zs.map IEEEFloat.value).foldl cellStep v.value := by
  induction zs generalizing v with
  | nil => rfl
  | cons z zs ih => rw [List.foldl_cons, ih, cellStepBits_value, List.map_cons, List.foldl_cons]

/-- C6 as stated fails: the bits left in a cell depend on the order in which the
heights of its column reach the cell update.  A column with the heights `+0` and
`-0` ends as `+0` in one order and as `-0` in the other, `std::min` keeping its
first argument when neither is below the other; a column with two NaN heights
ends as the NaN visited last. -/
theorem C6_bit_identity_fails :
    [IEEEFloat.num 0, IEEEFloat.negZero].Perm [IEEEFloat.negZero, IEEEFloat.num 0]
      ∧ columnCellBits [IEEEFloat.num 0, IEEEFloat.negZero] = IEEEFloat.num 0
      ∧ columnCellBits [IEEEFloat.negZero, IEEEFloat.num 0] = IEEEFloat.negZero
      ∧ columnCellBits [IEEEFloat.num 0, IEEEFloat.negZero]
          ≠ columnCellBits [IEEEFloat.negZero, IEEEFloat.num 0]
      ∧ [IEEEFloat.nan 1, IEEEFloat.nan 2].Perm [IEEEFloat.nan 2, IEEEFloat.nan 1]
      ∧ columnCellBits [IEEEFloat.nan 1, IEEEFloat.nan 2] = IEEEFloat.nan 2
      ∧ columnCellBits [IEEEFloat.nan 2, IEEEFloat.nan 1] = IEEEFloat.nan 1 := by
  refine ⟨List.Perm.swap _ _ _, by decide!, by decide!, by decide!, List.Perm.swap _ _ _,
    by decide!, by decide!⟩

/-- C6 amended, determinism under traversal order: two non-empty volumes with
the same transform whose active voxels and whose sequences of stored points are
permutations of each other, that is one volume traversed in two orders, yield
maps with the same dimensions, the same pose and the same numeric value in every
cell: NaN in both, or the same number in both.  For the bits of a cell this is:
the heights of a column in two orders leave floats of the same numeric value,
which is the cell of the numeric map. -/
theorem C6_traversal_order (g g2 : PointDataGrid) (hne : g.empty = false)
    (hne2 : g2.empty = false) (htf : g2.transform = g.transform)
    (hvox : (g2.activeVoxels.map Voxel.coord).Perm (g.activeVoxels.map Voxel.coord))
    (hpts : g2.pointList.Perm g.pointList) :
    (∃ m m2, ground_plane_extraction_geometric (some g) = some m
      ∧ ground_plane_extraction_geometric (some g2) = some m2
      ∧ m2.map.rows = m.map.rows ∧ m2.map.cols = m.map.cols ∧ m2.pose = m.pose
      ∧ (∀ row col, m2.map.coeff row col = m.map.coeff row col) ∧ m2 = m)
      ∧ ∀ zs zs2 : List IEEEFloat, zs.Perm zs2 →
          (columnCellBits zs).value = (columnCellBits zs2).value
            ∧ (columnCellBits zs).value = (zs.map IEEEFloat.value).foldl cellStep NAN := by
  constructor
  · have hbox : g2.evalActiveVoxelBoundingBox = g.evalActiveVoxelBoundingBox := by
      by_cases hv : g.activeVoxels = []
      · have hv2 : g2.activeVoxels = [] := by
          rw [hv] at hvox
          have := hvox.eq_nil
          simpa using this
        rw [evalActiveVoxelBoundingBox_of_nil g hv, evalActiveVoxelBoundingBox_of_nil g2 hv2]
      · have hv2 : g2.activeVoxels ≠ [] := by
          intro h
          rw [h] at hvox
          have := hvox.symm.eq_nil
          simp at this
          exact hv this
        exact isBoundingBox_unique (evalActiveVoxelBoundingBox_spec g2 hv2)
          (evalActiveVoxelBoundingBox_spec g hv) (fun c => hvox.mem_iff)
    obtain ⟨m, hm, hr, hc, hp, hcell⟩ := extraction_spec g hne
    obtain ⟨m2, hm2, hr2, hc2, hp2, hcell2⟩ := extraction_spec g2 hne2
    have hcoeff : ∀ row col, m2.map.coeff row col = m.map.coeff row col := by
      intro row col
      rw [hcell, hcell2]
      refine isMinimumOf_unique (foldl_cellStep_isMinimumOf _) (foldl_cellStep_isMinimumOf _) ?_
      intro z
      unfold columnZs columnZsOf
      rw [hbox, htf]
      exact ((hpts.filter _).map _).mem_iff
    have hrows : m2.map.rows = m.map.rows := by rw [hr, hr2, hbox]
    have hcols : m2.map.cols = m.map.cols := by rw [hc, hc2, hbox]
    have hpose : m2.pose = m.pose := by rw [hp, hp2, hbox, htf]
    refine ⟨m, m2, hm, hm2, hrows, hcols, hpose, hcoeff, ?_⟩
    obtain ⟨⟨r1, c1, f1⟩, p1⟩ := m
    obtain ⟨⟨r2, c2, f2⟩, p2⟩ := m2
    simp only at hrows hcols hpose hcoeff
    have hf : f2 = f1 := funext fun r => funext fun c => hcoeff r c
    subst hrows hcols hpose hf
    rfl
  · intro zs zs2 hperm
    have e1 : (columnCellBits zs).value = (zs.map IEEEFloat.value).foldl cellStep NAN :=
      foldl_cellStepBits_value zs _
    have e2 : (columnCellBits zs2).value = (zs2.map IEEEFloat.value).foldl cellStep NAN :=
      foldl_cellStepBits_value zs2 _
    refine ⟨?_, e1⟩
    rw [e1, e2]
    exact isMinimumOf_unique (foldl_cellStep_isMinimumOf _) (foldl_cellStep_isMinimumOf _)
      (fun z => (hperm.map _).mem_iff)

/-- The statement of C6 amended for `sampleGrid` and `sampleGridReordered`, and
for a column with the heights `+0` and `-0`. -/
theorem C6_traversal_order_witness :
    (∃ m m2, ground_plane_extraction_geometric (some sampleGrid) = some m
      ∧ ground_plane_extraction_geometric (some sampleGridReordered) = some m2
      ∧ m2.map.rows = m.map.rows ∧ m2.map.cols = m.map.cols ∧ m2.pose = m.pose
      ∧ (∀ row col, m2.map.coeff row col = m.map.coeff row col) ∧ m2 = m)
      ∧ (columnCellBits [IEEEFloat.num 0, IEEEFloat.negZero]).value
          = (columnCellBits [IEEEFloat.negZero, IEEEFloat.num 0]).value := by
  obtain ⟨h1, h2⟩ := C6_traversal_order sampleGrid sampleGridReordered (by decide) (by decide)
    rfl (by decide) (by decide!)
  exact ⟨h1, (h2 _ _ (List.Perm.swap _ _ _)).1⟩

end ovm
